import Mathlib

/-!
Verification of `azure/identity/_internal/aad_client_base.py` (AadClientBase):
token-cache protocol, response processing, JWT client-assertion construction,
claims merging, and pickling behavior. Python dicts holding decoded JSON are
modelled as association lists of `Json` values; stateful cache mutation is
modelled by explicit state passing; fallible code returns `Except`.
-/

set_option maxHeartbeats 1000000
set_option maxRecDepth 4000

namespace AadClient

/-- Decoded JSON values, the value universe for response bodies, request form
data and claims challenges. Numbers are modelled as integers (the fields the
client reads are integral). -/
inductive Json where
  | null : Json
  | bool : Bool → Json
  | num : Int → Json
  | str : String → Json
  | arr : List Json → Json
  | obj : List (String × Json) → Json

mutual

/-- Decidable equality on JSON values (the nested inductive blocks automatic
derivation). -/
def Json.decEq : (a b : Json) → Decidable (a = b)
  | .null, .null => .isTrue rfl
  | .bool x, .bool y =>
    if h : x = y then .isTrue (by rw [h]) else .isFalse (by simp [h])
  | .num x, .num y =>
    if h : x = y then .isTrue (by rw [h]) else .isFalse (by simp [h])
  | .str x, .str y =>
    if h : x = y then .isTrue (by rw [h]) else .isFalse (by simp [h])
  | .arr xs, .arr ys =>
    match Json.decEqList xs ys with
    | .isTrue h => .isTrue (by rw [h])
    | .isFalse h => .isFalse (by simp [h])
  | .obj xs, .obj ys =>
    match Json.decEqObj xs ys with
    | .isTrue h => .isTrue (by rw [h])
    | .isFalse h => .isFalse (by simp [h])
  | .null, .bool _ => .isFalse (fun h => Json.noConfusion h)
  | .null, .num _ => .isFalse (fun h => Json.noConfusion h)
  | .null, .str _ => .isFalse (fun h => Json.noConfusion h)
  | .null, .arr _ => .isFalse (fun h => Json.noConfusion h)
  | .null, .obj _ => .isFalse (fun h => Json.noConfusion h)
  | .bool _, .null => .isFalse (fun h => Json.noConfusion h)
  | .bool _, .num _ => .isFalse (fun h => Json.noConfusion h)
  | .bool _, .str _ => .isFalse (fun h => Json.noConfusion h)
  | .bool _, .arr _ => .isFalse (fun h => Json.noConfusion h)
  | .bool _, .obj _ => .isFalse (fun h => Json.noConfusion h)
  | .num _, .null => .isFalse (fun h => Json.noConfusion h)
  | .num _, .bool _ => .isFalse (fun h => Json.noConfusion h)
  | .num _, .str _ => .isFalse (fun h => Json.noConfusion h)
  | .num _, .arr _ => .isFalse (fun h => Json.noConfusion h)
  | .num _, .obj _ => .isFalse (fun h => Json.noConfusion h)
  | .str _, .null => .isFalse (fun h => Json.noConfusion h)
  | .str _, .bool _ => .isFalse (fun h => Json.noConfusion h)
  | .str _, .num _ => .isFalse (fun h => Json.noConfusion h)
  | .str _, .arr _ => .isFalse (fun h => Json.noConfusion h)
  | .str _, .obj _ => .isFalse (fun h => Json.noConfusion h)
  | .arr _, .null => .isFalse (fun h => Json.noConfusion h)
  | .arr _, .bool _ => .isFalse (fun h => Json.noConfusion h)
  | .arr _, .num _ => .isFalse (fun h => Json.noConfusion h)
  | .arr _, .str _ => .isFalse (fun h => Json.noConfusion h)
  | .arr _, .obj _ => .isFalse (fun h => Json.noConfusion h)
  | .obj _, .null => .isFalse (fun h => Json.noConfusion h)
  | .obj _, .bool _ => .isFalse (fun h => Json.noConfusion h)
  | .obj _, .num _ => .isFalse (fun h => Json.noConfusion h)
  | .obj _, .str _ => .isFalse (fun h => Json.noConfusion h)
  | .obj _, .arr _ => .isFalse (fun h => Json.noConfusion h)

/-- Decidable equality on lists of JSON values. -/
def Json.decEqList : (a b : List Json) → Decidable (a = b)
  | [], [] => .isTrue rfl
  | [], _ :: _ => .isFalse (by simp)
  | _ :: _, [] => .isFalse (by simp)
  | x :: xs, y :: ys =>
    match Json.decEq x y with
    | .isTrue h1 =>
      match Json.decEqList xs ys with
      | .isTrue h2 => .isTrue (by rw [h1, h2])
      | .isFalse h2 => .isFalse (by simp [h2])
    | .isFalse h1 => .isFalse (by simp [h1])

/-- Decidable equality on JSON object member lists. -/
def Json.decEqObj : (a b : List (String × Json)) → Decidable (a = b)
  | [], [] => .isTrue rfl
  | [], _ :: _ => .isFalse (by simp)
  | _ :: _, [] => .isFalse (by simp)
  | (k1, v1) :: xs, (k2, v2) :: ys =>
    if hk : k1 = k2 then
      match Json.decEq v1 v2 with
      | .isTrue h1 =>
        match Json.decEqObj xs ys with
        | .isTrue h2 => .isTrue (by rw [hk, h1, h2])
        | .isFalse h2 => .isFalse (by simp [h2])
      | .isFalse h1 => .isFalse (by simp [h1])
    else .isFalse (by simp [hk])

end

instance : DecidableEq Json := Json.decEq

/-- A Python dict with string keys and JSON values, in insertion order. -/
abbrev Content := List (String × Json)

/-- Membership lookup of a key, returning the first bound value (Python dicts
hold each key once; the model reads the first occurrence). -/
def lookupKey : Content → String → Option Json
  | [], _ => none
  | (k', v) :: t, k => if k' = k then some v else lookupKey t k

/-- Python `key in d`. -/
def hasKey (c : Content) (k : String) : Bool :=
  (lookupKey c k).isSome

/-- Python `d[key] = v`: replace the value in place when the key exists,
otherwise append the pair (insertion order preserved). -/
def setKey : Content → String → Json → Content
  | [], k, v => [(k, v)]
  | (k', v') :: t, k, v => if k' = k then (k, v) :: t else (k', v') :: setKey t k v

/-- Python `del d[key]`. -/
def delKey (c : Content) (k : String) : Content :=
  c.filter (fun p => p.1 ≠ k)

@[simp] theorem lookupKey_nil (k : String) : lookupKey [] k = none := rfl

@[simp] theorem lookupKey_cons (k' k : String) (v : Json) (t : Content) :
    lookupKey ((k', v) :: t) k = if k' = k then some v else lookupKey t k := rfl

theorem lookupKey_setKey_self (c : Content) (k : String) (v : Json) :
    lookupKey (setKey c k v) k = some v := by
  induction c with
  | nil => simp [setKey]
  | cons p t ih =>
    obtain ⟨k', v'⟩ := p
    by_cases h : k' = k
    · simp [setKey, h]
    · simp [setKey, h, ih]

theorem lookupKey_setKey_ne (c : Content) (k k₀ : String) (v : Json) (h : k₀ ≠ k) :
    lookupKey (setKey c k v) k₀ = lookupKey c k₀ := by
  induction c with
  | nil => simp [setKey, Ne.symm h]
  | cons p t ih =>
    obtain ⟨k', v'⟩ := p
    by_cases hk : k' = k
    · subst hk
      simp [setKey, Ne.symm h]
    · by_cases hk0 : k' = k₀
      · subst hk0
        simp [setKey, hk]
      · simp [setKey, hk, hk0, ih]

theorem lookupKey_delKey_self (c : Content) (k : String) :
    lookupKey (delKey c k) k = none := by
  induction c with
  | nil => simp [delKey]
  | cons p t ih =>
    obtain ⟨k', v'⟩ := p
    simp only [delKey, List.filter_cons, ne_eq, decide_not] at ih ⊢
    by_cases h : k' = k
    · subst h
      simpa using ih
    · simp [h, ih]

theorem lookupKey_delKey_ne (c : Content) (k k₀ : String) (h : k₀ ≠ k) :
    lookupKey (delKey c k) k₀ = lookupKey c k₀ := by
  induction c with
  | nil => simp [delKey]
  | cons p t ih =>
    obtain ⟨k', v'⟩ := p
    simp only [delKey, List.filter_cons, ne_eq, decide_not] at ih ⊢
    by_cases hk : k' = k
    · subst hk
      simp [Ne.symm h, ih]
    · by_cases hk0 : k' = k₀
      · subst hk0
        simp [hk]
      · simp [hk, hk0, ih]

/-- All-decimal-digit character list to a natural number. -/
def digitsToNat (ds : List Char) : Option Nat :=
  match ds with
  | [] => none
  | _ =>
    if ds.all Char.isDigit then
      some (ds.foldl (fun acc c => acc * 10 + (c.toNat - '0'.toNat)) 0)
    else none

/-- Integer parse of a decimal string, optionally signed, as `int(...)` does
on a string. -/
def pyStrToInt (s : String) : Option Int :=
  match s.data with
  | [] => none
  | '-' :: ds => (digitsToNat ds).map (fun n => -(n : Int))
  | ds => (digitsToNat ds).map (fun n => (n : Int))

/-- Python `int(x)` on the values the client feeds it: ints pass through,
booleans coerce, numeric strings parse, anything else raises. -/
def intOfJson : Json → Option Int
  | .num n => some n
  | .bool b => some (if b then 1 else 0)
  | .str s => pyStrToInt s
  | _ => none

/-- Python truthiness of a JSON value (`None`, `False`, `0`, `""`, `[]` and
`{}` are falsy). -/
def truthy : Json → Bool
  | .null => false
  | .bool b => b
  | .num n => n ≠ 0
  | .str s => s ≠ ""
  | .arr xs => ¬xs.isEmpty
  | .obj kvs => ¬kvs.isEmpty

/-- Join a list of strings with a separator, as `sep.join(parts)` does. -/
def joinSep (sep : String) : List String → String
  | [] => ""
  | [x] => x
  | x :: y :: t => x ++ sep ++ joinSep sep (y :: t)

mutual

/-- Python `repr` of a decoded JSON value. -/
def pyRepr : Json → String
  | .null => "None"
  | .bool true => "True"
  | .bool false => "False"
  | .num n => toString n
  | .str s => "\x27" ++ s ++ "\x27"
  | .arr xs => "[" ++ pyReprList xs ++ "]"
  | .obj kvs => "\x7b" ++ pyReprObj kvs ++ "\x7d"

/-- Comma-joined `repr`s of list elements. -/
def pyReprList : List Json → String
  | [] => ""
  | [x] => pyRepr x
  | x :: y :: t => pyRepr x ++ ", " ++ pyReprList (y :: t)

/-- Comma-joined `repr`s of dict items. -/
def pyReprObj : List (String × Json) → String
  | [] => ""
  | [(k, v)] => "\x27" ++ k ++ "\x27: " ++ pyRepr v
  | (k, v) :: p :: t => "\x27" ++ k ++ "\x27: " ++ pyRepr v ++ ", " ++ pyReprObj (p :: t)

end

/-- Python `str` of a decoded JSON value as interpolated by `str.format`. -/
def pyStr : Json → String
  | .str s => s
  | v => pyRepr v

/-- Python `str` of a dict with string keys. -/
def pyStrOfDict (c : Content) : String :=
  "\x7b" ++ pyReprObj c ++ "\x7d"

/-- Split a character list at every character satisfying `p` (separators are
dropped; empty runs are kept, as `str.split` with an argument would). -/
def splitOnPred (p : Char → Bool) : List Char → List (List Char)
  | [] => [[]]
  | c :: t =>
    if p c then [] :: splitOnPred p t
    else
      match splitOnPred p t with
      | [] => [[c]]
      | h :: r => (c :: h) :: r

/-- Python `s.split()`: split on whitespace runs, discarding empty pieces. -/
def pySplitWs (s : String) : List String :=
  ((splitOnPred Char.isWhitespace s.data).filter (fun l => !l.isEmpty)).map
    (fun l => String.mk l)

/-- Whether `needle` is a prefix of `hay` (over character lists). -/
def lcPre : List Char → List Char → Bool
  | [], _ => true
  | _ :: _, [] => false
  | a :: as, b :: bs => a == b && lcPre as bs

/-- Whether `needle` occurs as a contiguous substring of `hay` (over
character lists): the containment test used to state secrecy properties of
error messages. -/
def lcSub (needle hay : List Char) : Bool :=
  match hay with
  | [] => needle.isEmpty
  | _ :: t => lcPre needle hay || lcSub needle t

/-- The error outcomes of the modelled code: `ClientAuthenticationError` with
its message, plus the unchecked Python exceptions (`KeyError` on a missing
key, `ValueError` from `int(...)`, attribute/type errors on ill-typed values,
and `json.loads` parse failures). -/
inductive ProcErr where
  | auth : String → ProcErr
  | keyErr : ProcErr
  | valueErr : ProcErr
  | typeErr : ProcErr
  | parseErr : ProcErr
deriving DecidableEq

/-- The `azure.core.credentials.AccessTokenInfo` value returned to callers. -/
structure AccessTokenInfo where
  token : String
  expires_on : Int
  token_type : String
  refresh_on : Option Int
deriving DecidableEq

/-- A cached refresh-token credential. Modelled from the spec: the msal
`TokenCache` is an external collaborator; per the spec a refresh-token entry
is keyed by its secret value and carries the scopes it was issued for. The
secret keeps its raw JSON value. -/
structure RTEntry where
  secret : Json
  target : List String
deriving DecidableEq

/-- A cached access-token credential. Modelled from the spec: keyed by
client id, realm (tenant), target (scopes) and secret, with its expiry,
token type and optional proactive-refresh time. -/
structure ATEntry where
  client_id : String
  realm : String
  target : List String
  secret : String
  expires_on : Int
  token_type : String
  refresh_on : Option Int
deriving DecidableEq

/-- The msal `TokenCache` state. Modelled from the spec: a keyed store of
access-token and refresh-token credentials supporting search, add, update
and remove. -/
structure TokenCache where
  accessTokens : List ATEntry
  refreshTokens : List RTEntry
deriving DecidableEq

/-- An empty cache. -/
def TokenCache.empty : TokenCache := ⟨[], []⟩

/-- Modelled from the spec: `cache.search(REFRESH_TOKEN, query={"secret": s})`
returns the refresh-token entries whose secret equals the query value. -/
def searchRTBySecret (cache : TokenCache) (secret : Json) : List RTEntry :=
  cache.refreshTokens.filter (fun e => decide (e.secret = secret))

/-- Modelled from the spec: `cache.remove_rt(entry)` evicts the given
refresh-token entry. -/
def removeRT (cache : TokenCache) (e : RTEntry) : TokenCache :=
  { cache with refreshTokens := cache.refreshTokens.filter (fun x => decide (x ≠ e)) }

/-- Modelled from the spec: `cache.update_rt(entry, new_secret)` rewrites the
given entry's secret in place. -/
def updateRT (cache : TokenCache) (e : RTEntry) (newSecret : Json) : TokenCache :=
  { cache with
    refreshTokens :=
      cache.refreshTokens.map (fun x => if x = e then { x with secret := newSecret } else x) }

/-- Modelled from the spec: the realm of a cached entry is the tenant path
segment of the token-endpoint URL `{authority}/{tenant}/oauth2/v2.0/token`,
where the authority has the shape `scheme://host`. -/
def realmOfUrl (url : String) : String :=
  match (splitOnPred (fun c => c == '/') url.data).drop 3 with
  | [] => ""
  | h :: _ => String.mk h

/-- The `token_type` the cache layer and the token constructor read:
`content.get("token_type", "Bearer")`. -/
def tokenTypeOf (response : Content) : String :=
  match lookupKey response "token_type" with
  | some v => pyStr v
  | none => "Bearer"

/-- Modelled from the spec: the expiry recorded for a cached access token,
computed from the response as response processing does (literal `expires_on`,
else `now + expires_in`). -/
def entryExpiry (response : Content) (now : Int) : Option Int :=
  match lookupKey response "expires_on" with
  | some v => intOfJson v
  | none =>
    match lookupKey response "expires_in" with
    | some v => (intOfJson v).map (fun n => now + n)
    | none => none

/-- Modelled from the spec: the proactive-refresh time recorded for a cached
access token, `now + refresh_in` when the response carries `refresh_in`. -/
def entryRefreshOn (response : Content) (now : Int) : Option Int :=
  match lookupKey response "refresh_in" with
  | some v => (intOfJson v).map (fun n => now + n)
  | none => none

/-- The event dict passed to `cache.add`. -/
structure CacheEvent where
  client_id : String
  response : Content
  scope : List String
  token_endpoint : String
deriving DecidableEq

/-- Order-insensitive equality of scope lists. -/
def sameScopeSet (a b : List String) : Bool :=
  a.all (fun s => b.contains s) && b.all (fun s => a.contains s)

/-- Whether two access-token entries share a cache key (client id, realm and
scope set). -/
def atSameKey (x e : ATEntry) : Bool :=
  x.client_id == e.client_id && x.realm == e.realm && sameScopeSet x.target e.target

/-- Insert an access-token entry, replacing in place the entry with the same
cache key when one exists (the cache holds one credential per key). -/
def upsertAT : List ATEntry → ATEntry → List ATEntry
  | [], e => [e]
  | x :: xs, e => if atSameKey x e then e :: xs else x :: upsertAT xs e

/-- Modelled from the spec: `cache.add(event, now)` caches the response
content under the event's key — an access-token entry for `access_token`
(client id, realm from the token endpoint, target from the request scopes)
and a refresh-token entry when the content still carries `refresh_token`. -/
def cacheAdd (cache : TokenCache) (ev : CacheEvent) (now : Int) : TokenCache :=
  let rts :=
    match lookupKey ev.response "refresh_token" with
    | some v => cache.refreshTokens ++ [⟨v, ev.scope⟩]
    | none => cache.refreshTokens
  let ats :=
    match lookupKey ev.response "access_token" with
    | some (.str s) =>
      match entryExpiry ev.response now with
      | some exp =>
        upsertAT cache.accessTokens
          ⟨ev.client_id, realmOfUrl ev.token_endpoint, ev.scope, s, exp,
            tokenTypeOf ev.response, entryRefreshOn ev.response now⟩
      | none => cache.accessTokens
    | _ => cache.accessTokens
  ⟨ats, rts⟩

/-- Persistent-cache configuration, an opaque option bag owned by the caller
(`_load_persistent_cache` is an external collaborator). -/
structure CachePersistenceOptions where
  name : String
deriving DecidableEq

/-- The state of an `AadClientBase` instance. -/
structure Client where
  authority : String
  tenant_id : String
  client_id : String
  additionally_allowed_tenants : List String
  cache : Option TokenCache
  cae_cache : Option TokenCache
  cache_options : Option CachePersistenceOptions
  custom_cache : Bool
  is_adfs : Bool
deriving DecidableEq

/-- Python `str.lower()` over the characters of a string (ASCII case fold,
which is what tenant ids need). -/
def pyLower (s : String) : String :=
  String.mk (s.data.map Char.toLower)

/-- Model of `AadClientBase.__init__` (lines 39-64): records the normalized authority
(normalization itself is external; the model takes the authority as given),
tenant and client ids, the allowed-tenants list, the caller-supplied caches,
the custom-cache flag and the ADFS test. -/
def initClient (tenant_id client_id authority : String)
    (cache cae_cache : Option TokenCache)
    (additionally_allowed_tenants : Option (List String))
    (cache_persistence_options : Option CachePersistenceOptions) : Client :=
  { authority := authority
    tenant_id := tenant_id
    client_id := client_id
    additionally_allowed_tenants := additionally_allowed_tenants.getD []
    cache := cache
    cae_cache := cae_cache
    cache_options := cache_persistence_options
    custom_cache := cache.isSome || cae_cache.isSome
    is_adfs := pyLower tenant_id == "adfs" }

/-- Per-call options the modelled methods read from `**kwargs`. -/
structure Kwargs where
  tenant_id : Option String := none
  enable_cae : Bool := false
  claims : Option String := none
deriving DecidableEq

/-- Modelled from the spec: `resolve_tenant` (from `_internal/utils`, an
external collaborator of the modelled module) resolves the per-request tenant
from the default tenant id and an optional per-call override; the
additionally-allowed-tenants list only gates which overrides are accepted,
not the value a permitted resolution yields. -/
def resolveTenant (default_tenant : String) (kwargsTenant : Option String) : String :=
  kwargsTenant.getD default_tenant

/-- Model of `AadClientBase._get_token_url` (lines 378-382). -/
def getTokenUrl (client : Client) (kwargs : Kwargs) : String :=
  joinSep "/"
    [client.authority, resolveTenant client.tenant_id kwargs.tenant_id, "oauth2/v2.0/token"]

/-- The predicate `get_cached_access_token` applies to cached entries: the
search filter (client id, realm, scopes contained in the target) plus the
strict-future expiry test of the loop body. -/
def atQueryMatch (cid realm : String) (scopes : List String) (now : Int) (e : ATEntry) : Bool :=
  e.client_id == cid && e.realm == realm && scopes.all (fun s => e.target.contains s) &&
    decide (now < e.expires_on)

/-- Convert a cache entry to the `AccessTokenInfo` the lookup returns. -/
def toAccessTokenInfo (e : ATEntry) : AccessTokenInfo :=
  ⟨e.secret, e.expires_on, e.token_type, e.refresh_on⟩

/-- Model of `AadClientBase.get_cached_access_token` (lines 85-102): resolve the
tenant, search the cache and return the first matching unexpired entry. The
cache is passed explicitly (the code fetches it with `_get_cache`). -/
def getCachedAccessToken (client : Client) (cache : TokenCache) (scopes : List String)
    (kwargs : Kwargs) (now : Int) : Option AccessTokenInfo :=
  let tenant := resolveTenant client.tenant_id kwargs.tenant_id
  (cache.accessTokens.find? (atQueryMatch client.client_id tenant scopes now)).map
    toAccessTokenInfo

/-- An HTTP request as response processing sees it: the URL it was posted to
and its form body. -/
structure HttpRequest where
  url : String
  body : Content
deriving DecidableEq

/-- Python `d[key]`: the value, or a `KeyError`. -/
def getJsonVal (c : Content) (k : String) : Except ProcErr Json :=
  match lookupKey c k with
  | some v => .ok v
  | none => .error .keyErr

/-- Python `int(v)`: the integer, or a `ValueError`/`TypeError`. -/
def asInt (v : Json) : Except ProcErr Int :=
  match intOfJson v with
  | some n => .ok n
  | none => .error .valueErr

/-- Model of `_scrub_secrets` (lines 415-418): mask `access_token` and `refresh_token`
when present. -/
def scrubSecrets (c : Content) : Content :=
  let c₁ := if hasKey c "access_token" then setKey c "access_token" (.str "***") else c
  if hasKey c₁ "refresh_token" then setKey c₁ "refresh_token" (.str "***") else c₁

/-- The message `_raise_for_error` builds (lines 425-430), from the already
scrubbed content. -/
def errorResponseMessage (c : Content) : String :=
  match lookupKey c "error_description" with
  | some d =>
    "Microsoft Entra ID error \x27(" ++ pyStr ((lookupKey c "error").getD .null) ++ ") " ++
      pyStr d ++ "\x27"
  | none => "Microsoft Entra ID error \x27" ++ pyStrOfDict c ++ "\x27"

/-- The message raised when a response has neither `expires_on` nor
`expires_in` (line 176), from the already scrubbed content. -/
def unexpectedResponseMessage (c : Content) : String :=
  "Unexpected response from Microsoft Entra ID: " ++ pyStrOfDict c

/-- The `invalid_grant` eviction of `_process_response` (lines 144-153): when
the response reports `invalid_grant`, look up every refresh-token entry whose
secret is the request's refresh token and remove each. -/
def evictInvalidGrant (body : Content) (content : Content) (cache : TokenCache) :
    Except ProcErr TokenCache :=
  if lookupKey content "error" = some (.str "invalid_grant") then
    (getJsonVal body "refresh_token").map
      (fun old => (searchRTBySecret cache old).foldl removeRT cache)
  else .ok cache

/-- The refresh-token rotation of `_process_response` (lines 154-166): when
the response carries a new `refresh_token`, look up the entries holding the
request's old secret; update the entry in place and strip the new token from
the content only when exactly one matches. -/
def rotateRefreshToken (body : Content) (content : Content) (cache₁ : TokenCache) :
    Except ProcErr (TokenCache × Content) :=
  if hasKey content "refresh_token" then
    match getJsonVal body "refresh_token" with
    | .error e => .error e
    | .ok old =>
      match searchRTBySecret cache₁ old with
      | [e] =>
        match getJsonVal content "refresh_token" with
        | .error e₂ => .error e₂
        | .ok newSecret =>
          .ok (updateRT cache₁ e newSecret, delKey content "refresh_token")
      | _ => .ok (cache₁, content)
  else .ok (cache₁, content)

/-- The refresh-token-grant cache maintenance of `_process_response`
(lines 143-166): eviction on `invalid_grant`, then rotation handling. -/
def refreshGrantStep (body : Content) (content : Content) (cache : TokenCache) :
    Except ProcErr (TokenCache × Content) :=
  if lookupKey body "grant_type" = some (.str "refresh_token") then
    match evictInvalidGrant body content cache with
    | .error e => .error e
    | .ok cache₁ => rotateRefreshToken body content cache₁
  else .ok (cache, content)

/-- The `expires_on` computation of `_process_response` (lines 170-176):
literal `expires_on`, else `request_time + expires_in`, else scrub and fail. -/
def computeExpiresOn (content : Content) (requestTime : Int) : Except ProcErr Int :=
  match lookupKey content "expires_on" with
  | some v => asInt v
  | none =>
    match lookupKey content "expires_in" with
    | some v => (asInt v).map (fun n => requestTime + n)
    | none => .error (.auth (unexpectedResponseMessage (scrubSecrets content)))

/-- The `expires_in` computation of `_process_response` (line 178):
`int(content.get("expires_in") or expires_on - request_time)`. -/
def computeExpiresIn (content : Content) (requestTime expiresOn : Int) : Except ProcErr Int :=
  match lookupKey content "expires_in" with
  | some v => if truthy v then asInt v else .ok (expiresOn - requestTime)
  | none => .ok (expiresOn - requestTime)

/-- The `refresh_in` synthesis of `_process_response` (lines 179-181). -/
def synthRefreshIn (content : Content) (expiresIn : Int) : Content :=
  if !hasKey content "refresh_in" && decide (expiresIn ≥ 7200) then
    setKey content "refresh_in" (.num (Int.fdiv expiresIn 2))
  else content

/-- The `refresh_on` computation of `_process_response` (line 183). -/
def computeRefreshOn (content : Content) (requestTime : Int) : Except ProcErr (Option Int) :=
  match lookupKey content "refresh_in" with
  | some v => (asInt v).map (fun n => some (requestTime + n))
  | none => .ok none

/-- The `AccessTokenInfo` construction of `_process_response` (lines 184-186). -/
def buildToken (content : Content) (expiresOn : Int) (refreshOn : Option Int) :
    Except ProcErr AccessTokenInfo :=
  match lookupKey content "access_token" with
  | some (.str s) => .ok ⟨s, expiresOn, tokenTypeOf content, refreshOn⟩
  | some _ => .error .typeErr
  | none => .error .keyErr

/-- Model of `_process_response` after the refresh-grant step (lines 168-199): error
raising, expiry computation, `refresh_in` synthesis, token construction and
the final cache write. Returns the token, the cache after the write and the
content as passed to `cache.add`. -/
def processResponseAux (client : Client) (cache₁ : TokenCache) (req : HttpRequest)
    (content₁ : Content) (requestTime : Int) :
    Except ProcErr (AccessTokenInfo × TokenCache × Content) :=
  if hasKey content₁ "error" then
    .error (.auth (errorResponseMessage (scrubSecrets content₁)))
  else
    match computeExpiresOn content₁ requestTime with
    | .error e => .error e
    | .ok expiresOn =>
      match computeExpiresIn content₁ requestTime expiresOn with
      | .error e => .error e
      | .ok expiresIn =>
        match computeRefreshOn (synthRefreshIn content₁ expiresIn) requestTime with
        | .error e => .error e
        | .ok refreshOn =>
          match buildToken (synthRefreshIn content₁ expiresIn) expiresOn refreshOn with
          | .error e => .error e
          | .ok tok =>
            match getJsonVal req.body "scope" with
            | .error e => .error e
            | .ok (.str scopeStr) =>
              .ok (tok,
                cacheAdd cache₁
                  ⟨client.client_id, synthRefreshIn content₁ expiresIn, pySplitWs scopeStr,
                    req.url⟩ requestTime,
                synthRefreshIn content₁ expiresIn)
            | .ok _ => .error .typeErr

/-- Model of `AadClientBase._process_response` (lines 137-199). The decoded content is
taken as input (decoding is the pipeline's job); the cache is passed and
returned explicitly, since the code mutates a shared cache in place — in
particular the cache state is returned even when an error is raised. -/
def processResponse (client : Client) (cache : TokenCache) (req : HttpRequest)
    (content : Content) (requestTime : Int) :
    TokenCache × Except ProcErr (AccessTokenInfo × Content) :=
  match refreshGrantStep req.body content cache with
  | .error e => (cache, .error e)
  | .ok (cache₁, content₁) =>
    match processResponseAux client cache₁ req content₁ requestTime with
    | .error e => (cache₁, .error e)
    | .ok (tok, cache₂, content₂) => (cache₂, .ok (tok, content₂))

theorem mem_foldl_removeRT (L : List RTEntry) (cache : TokenCache) (e : RTEntry)
    (he : e ∈ (L.foldl removeRT cache).refreshTokens) :
    e ∈ cache.refreshTokens ∧ ∀ x ∈ L, e ≠ x := by
  induction L generalizing cache with
  | nil => simpa using he
  | cons y t ih =>
    obtain ⟨h₁, h₂⟩ := ih (removeRT cache y) (by simpa using he)
    simp only [removeRT, List.mem_filter, ne_eq, decide_eq_true_eq] at h₁
    exact ⟨h₁.1, by
      intro x hx
      rcases List.mem_cons.mp hx with rfl | hx
      · exact h₁.2
      · exact h₂ x hx⟩

theorem foldl_removeRT_accessTokens (L : List RTEntry) (cache : TokenCache) :
    (L.foldl removeRT cache).accessTokens = cache.accessTokens := by
  induction L generalizing cache with
  | nil => rfl
  | cons y t ih => simpa [removeRT] using ih (removeRT cache y)

theorem searchRT_after_evict (cache : TokenCache) (old : Json) :
    searchRTBySecret ((searchRTBySecret cache old).foldl removeRT cache) old = [] := by
  rw [searchRTBySecret, List.filter_eq_nil_iff]
  intro e he
  obtain ⟨h₁, h₂⟩ := mem_foldl_removeRT _ _ _ he
  simp only [decide_eq_true_eq]
  intro hs
  exact h₂ e (by simp [searchRTBySecret, List.mem_filter, h₁, hs]) rfl

theorem evictInvalidGrant_ok_accessTokens (body content : Content) (cache c₁ : TokenCache)
    (h : evictInvalidGrant body content cache = .ok c₁) :
    c₁.accessTokens = cache.accessTokens := by
  unfold evictInvalidGrant at h
  split at h
  · cases hjv : getJsonVal body "refresh_token" with
    | error e => rw [hjv] at h; simp [Except.map] at h
    | ok old =>
      rw [hjv] at h
      simp only [Except.map, Except.ok.injEq] at h
      subst h
      exact foldl_removeRT_accessTokens _ _
  · simp only [Except.ok.injEq] at h
    subst h
    rfl

theorem rotateRefreshToken_ok_cases (body content : Content) (cache₁ c₂ : TokenCache)
    (ct₂ : Content) (h : rotateRefreshToken body content cache₁ = .ok (c₂, ct₂)) :
    (c₂ = cache₁ ∧ ct₂ = content) ∨
    (∃ e newSecret old, lookupKey body "refresh_token" = some old ∧
      searchRTBySecret cache₁ old = [e] ∧
      lookupKey content "refresh_token" = some newSecret ∧
      c₂ = updateRT cache₁ e newSecret ∧ ct₂ = delKey content "refresh_token") := by
  unfold rotateRefreshToken at h
  split at h
  · cases hjv : getJsonVal body "refresh_token" with
    | error e => rw [hjv] at h; simp at h
    | ok old =>
      rw [hjv] at h
      dsimp only at h
      have hbody : lookupKey body "refresh_token" = some old := by
        unfold getJsonVal at hjv
        cases hl : lookupKey body "refresh_token" with
        | none => rw [hl] at hjv; simp at hjv
        | some v => rw [hl] at hjv; simp only [Except.ok.injEq] at hjv; rw [hjv]
      cases hsearch : searchRTBySecret cache₁ old with
      | nil =>
        rw [hsearch] at h
        dsimp only at h
        simp only [Except.ok.injEq, Prod.mk.injEq] at h
        exact Or.inl ⟨h.1.symm, h.2.symm⟩
      | cons e rest =>
        cases rest with
        | nil =>
          rw [hsearch] at h
          dsimp only at h
          cases hnv : getJsonVal content "refresh_token" with
          | error e₂ => rw [hnv] at h; simp at h
          | ok newSecret =>
            rw [hnv] at h
            dsimp only at h
            simp only [Except.ok.injEq, Prod.mk.injEq] at h
            refine Or.inr ⟨e, newSecret, old, hbody, hsearch, ?_, h.1.symm, h.2.symm⟩
            unfold getJsonVal at hnv
            cases hl : lookupKey content "refresh_token" with
            | none => rw [hl] at hnv; simp at hnv
            | some v => rw [hl] at hnv; simp only [Except.ok.injEq] at hnv; rw [hnv]
        | cons e' rest' =>
          rw [hsearch] at h
          dsimp only at h
          simp only [Except.ok.injEq, Prod.mk.injEq] at h
          exact Or.inl ⟨h.1.symm, h.2.symm⟩
  · simp only [Except.ok.injEq, Prod.mk.injEq] at h
    exact Or.inl ⟨h.1.symm, h.2.symm⟩

theorem refreshGrantStep_ok_content (body content : Content) (cache : TokenCache)
    (c₁ : TokenCache) (ct₁ : Content)
    (h : refreshGrantStep body content cache = .ok (c₁, ct₁)) :
    ct₁ = content ∨ ct₁ = delKey content "refresh_token" := by
  unfold refreshGrantStep at h
  split at h
  · cases hev : evictInvalidGrant body content cache with
    | error e => rw [hev] at h; simp at h
    | ok cache' =>
      rw [hev] at h
      rcases rotateRefreshToken_ok_cases body content cache' c₁ ct₁ h with
        ⟨_, hc⟩ | ⟨e, ns, old, _, _, _, _, hc⟩
      · exact Or.inl hc
      · exact Or.inr hc
  · simp only [Except.ok.injEq, Prod.mk.injEq] at h
    exact Or.inl h.2.symm

theorem refreshGrantStep_ok_lookup (body content : Content) (cache : TokenCache)
    (c₁ : TokenCache) (ct₁ : Content) (k : String)
    (h : refreshGrantStep body content cache = .ok (c₁, ct₁)) (hk : k ≠ "refresh_token") :
    lookupKey ct₁ k = lookupKey content k := by
  rcases refreshGrantStep_ok_content body content cache c₁ ct₁ h with rfl | rfl
  · rfl
  · exact lookupKey_delKey_ne content "refresh_token" k hk

theorem refreshGrantStep_ok_accessTokens (body content : Content) (cache : TokenCache)
    (c₁ : TokenCache) (ct₁ : Content)
    (h : refreshGrantStep body content cache = .ok (c₁, ct₁)) :
    c₁.accessTokens = cache.accessTokens := by
  unfold refreshGrantStep at h
  split at h
  · cases hev : evictInvalidGrant body content cache with
    | error e => rw [hev] at h; simp at h
    | ok cache' =>
      rw [hev] at h
      have hc' := evictInvalidGrant_ok_accessTokens body content cache cache' hev
      rcases rotateRefreshToken_ok_cases body content cache' c₁ ct₁ h with
        ⟨hc, _⟩ | ⟨e, ns, old, _, _, _, hc, _⟩
      · rw [hc]; exact hc'
      · rw [hc]; simpa [updateRT] using hc'
  · simp only [Except.ok.injEq, Prod.mk.injEq] at h
    rw [← h.1]

theorem processResponseAux_ok_inv (client : Client) (cache₁ : TokenCache) (req : HttpRequest)
    (content₁ : Content) (requestTime : Int) (tok : AccessTokenInfo) (cache₂ : TokenCache)
    (content₂ : Content)
    (hok : processResponseAux client cache₁ req content₁ requestTime =
      .ok (tok, cache₂, content₂)) :
    hasKey content₁ "error" = false ∧
    ∃ eon ein ron scopeStr,
      computeExpiresOn content₁ requestTime = .ok eon ∧
      computeExpiresIn content₁ requestTime eon = .ok ein ∧
      content₂ = synthRefreshIn content₁ ein ∧
      computeRefreshOn content₂ requestTime = .ok ron ∧
      buildToken content₂ eon ron = .ok tok ∧
      lookupKey req.body "scope" = some (.str scopeStr) ∧
      cache₂ = cacheAdd cache₁
        ⟨client.client_id, content₂, pySplitWs scopeStr, req.url⟩ requestTime := by
  unfold processResponseAux at hok
  split at hok
  · simp at hok
  · rename_i herr
    refine ⟨by simpa using herr, ?_⟩
    cases heon : computeExpiresOn content₁ requestTime with
    | error e => rw [heon] at hok; simp at hok
    | ok eon =>
    rw [heon] at hok
    dsimp only at hok
    cases hein : computeExpiresIn content₁ requestTime eon with
    | error e => rw [hein] at hok; simp at hok
    | ok ein =>
    rw [hein] at hok
    dsimp only at hok
    cases hron : computeRefreshOn (synthRefreshIn content₁ ein) requestTime with
    | error e => rw [hron] at hok; simp at hok
    | ok ron =>
    rw [hron] at hok
    dsimp only at hok
    cases htok : buildToken (synthRefreshIn content₁ ein) eon ron with
    | error e => rw [htok] at hok; simp at hok
    | ok tok' =>
    rw [htok] at hok
    dsimp only at hok
    cases hsv : getJsonVal req.body "scope" with
    | error e => rw [hsv] at hok; simp at hok
    | ok sv =>
    rw [hsv] at hok
    cases sv with
    | str scopeStr =>
      dsimp only at hok
      simp only [Except.ok.injEq, Prod.mk.injEq] at hok
      obtain ⟨h1, h2, h3⟩ := hok
      subst h3
      refine ⟨eon, ein, ron, scopeStr, rfl, hein, rfl, hron, ?_, ?_, h2.symm⟩
      · rw [htok, h1]
      · unfold getJsonVal at hsv
        cases hl : lookupKey req.body "scope" with
        | none => rw [hl] at hsv; simp at hsv
        | some v => rw [hl] at hsv; simp only [Except.ok.injEq] at hsv; rw [hsv]
    | null => simp at hok
    | bool b => simp at hok
    | num n => simp at hok
    | arr xs => simp at hok
    | obj kvs => simp at hok

theorem lookupKey_synthRefreshIn (c : Content) (ein : Int) (k : String)
    (hk : k ≠ "refresh_in") :
    lookupKey (synthRefreshIn c ein) k = lookupKey c k := by
  unfold synthRefreshIn
  split
  · exact lookupKey_setKey_ne c "refresh_in" k _ hk
  · rfl

theorem cacheAdd_refreshTokens_none (cache : TokenCache) (ev : CacheEvent) (now : Int)
    (h : lookupKey ev.response "refresh_token" = none) :
    (cacheAdd cache ev now).refreshTokens = cache.refreshTokens := by
  unfold cacheAdd
  rw [h]

theorem cacheAdd_refreshTokens_some (cache : TokenCache) (ev : CacheEvent) (now : Int)
    (v : Json) (h : lookupKey ev.response "refresh_token" = some v) :
    (cacheAdd cache ev now).refreshTokens = cache.refreshTokens ++ [⟨v, ev.scope⟩] := by
  unfold cacheAdd
  rw [h]

/-- C1: on a refresh-token-grant response carrying a new `refresh_token`, when
exactly one cached refresh-token entry holds the request's old secret,
response processing rewrites that entry's secret to the new value and strips
`refresh_token` from the content before the cache write (so the final cache's
refresh tokens are exactly the old list with that one secret updated); when
zero or several entries match, every pre-existing entry is left unchanged
(the final refresh-token list extends the old one). -/
theorem refresh_token_rotation
    (client : Client) (cache : TokenCache) (req : HttpRequest) (content : Content)
    (requestTime : Int) (old newSecret : Json)
    (hgrant : lookupKey req.body "grant_type" = some (.str "refresh_token"))
    (hold : lookupKey req.body "refresh_token" = some old)
    (hnew : lookupKey content "refresh_token" = some newSecret)
    (hnoerr : lookupKey content "error" = none) :
    (∀ e, searchRTBySecret cache old = [e] →
      (processResponse client cache req content requestTime).1.refreshTokens =
        cache.refreshTokens.map
          (fun x => if x = e then { x with secret := newSecret } else x) ∧
      ∀ tok c₂, (processResponse client cache req content requestTime).2 = .ok (tok, c₂) →
        lookupKey c₂ "refresh_token" = none) ∧
    ((searchRTBySecret cache old).length ≠ 1 →
      ∃ tail, (processResponse client cache req content requestTime).1.refreshTokens =
        cache.refreshTokens ++ tail) := by
  have hev : evictInvalidGrant req.body content cache = .ok cache := by
    unfold evictInvalidGrant
    rw [hnoerr]
    simp
  constructor
  · intro e hs
    have hstep : refreshGrantStep req.body content cache =
        .ok (updateRT cache e newSecret, delKey content "refresh_token") := by
      unfold refreshGrantStep
      rw [if_pos hgrant, hev]
      dsimp only
      unfold rotateRefreshToken
      rw [if_pos (show hasKey content "refresh_token" = true by simp [hasKey, hnew])]
      unfold getJsonVal
      rw [hold]
      dsimp only
      rw [hs, hnew]
    have hdel : lookupKey (delKey content "refresh_token") "refresh_token" = none :=
      lookupKey_delKey_self content "refresh_token"
    unfold processResponse
    rw [hstep]
    dsimp only
    cases haux : processResponseAux client (updateRT cache e newSecret) req
        (delKey content "refresh_token") requestTime with
    | error err =>
      refine ⟨rfl, ?_⟩
      intro tok c₂ hok
      simp at hok
    | ok res =>
      obtain ⟨tok, cache₂, content₂⟩ := res
      obtain ⟨-, eon, ein, ron, scopeStr, -, -, hct₂, -, -, -, hc₂⟩ :=
        processResponseAux_ok_inv client (updateRT cache e newSecret) req
          (delKey content "refresh_token") requestTime tok cache₂ content₂ haux
      have hct₂rt : lookupKey content₂ "refresh_token" = none := by
        rw [hct₂]
        rw [lookupKey_synthRefreshIn _ _ _ (by simp)]
        exact hdel
      constructor
      · dsimp only
        rw [hc₂]
        rw [cacheAdd_refreshTokens_none _ _ _ hct₂rt]
        rfl
      · intro tok' c₂' hok
        dsimp only at hok
        simp only [Except.ok.injEq, Prod.mk.injEq] at hok
        rw [← hok.2]
        exact hct₂rt
  · intro hlen
    have hstep : refreshGrantStep req.body content cache = .ok (cache, content) := by
      unfold refreshGrantStep
      rw [if_pos hgrant, hev]
      dsimp only
      unfold rotateRefreshToken
      rw [if_pos (show hasKey content "refresh_token" = true by simp [hasKey, hnew])]
      unfold getJsonVal
      rw [hold]
      dsimp only
      cases hs : searchRTBySecret cache old with
      | nil => rfl
      | cons e rest =>
        cases rest with
        | nil => exact absurd (by rw [hs]; rfl) hlen
        | cons e' rest' => rfl
    unfold processResponse
    rw [hstep]
    dsimp only
    cases haux : processResponseAux client cache req content requestTime with
    | error err => exact ⟨[], by simp⟩
    | ok res =>
      obtain ⟨tok, cache₂, content₂⟩ := res
      obtain ⟨-, eon, ein, ron, scopeStr, -, -, hct₂, -, -, -, hc₂⟩ :=
        processResponseAux_ok_inv client cache req content requestTime tok cache₂
          content₂ haux
      have hct₂rt : lookupKey content₂ "refresh_token" = some newSecret := by
        rw [hct₂]
        rw [lookupKey_synthRefreshIn _ _ _ (by simp)]
        exact hnew
      refine ⟨[⟨newSecret, pySplitWs scopeStr⟩], ?_⟩
      dsimp only
      rw [hc₂]
      rw [cacheAdd_refreshTokens_some _ _ _ _ hct₂rt]

/-- C2: on a refresh-token-grant response reporting `invalid_grant`, response
processing evicts from the cache every refresh-token entry whose secret
equals the request's refresh token (no such entry survives), and the call
then fails with the provider-error authentication failure. -/
theorem invalid_grant_evicts_refresh_tokens
    (client : Client) (cache : TokenCache) (req : HttpRequest) (content : Content)
    (requestTime : Int) (old : Json)
    (hgrant : lookupKey req.body "grant_type" = some (.str "refresh_token"))
    (hold : lookupKey req.body "refresh_token" = some old)
    (herr : lookupKey content "error" = some (.str "invalid_grant")) :
    (∀ e ∈ (processResponse client cache req content requestTime).1.refreshTokens,
      e.secret ≠ old) ∧
    ∃ m, (processResponse client cache req content requestTime).2 = .error (.auth m) := by
  have hsearch :
      searchRTBySecret ((searchRTBySecret cache old).foldl removeRT cache) old = [] :=
    searchRT_after_evict cache old
  have hstep : refreshGrantStep req.body content cache =
      .ok ((searchRTBySecret cache old).foldl removeRT cache, content) := by
    unfold refreshGrantStep
    rw [if_pos hgrant]
    have hev : evictInvalidGrant req.body content cache =
        .ok ((searchRTBySecret cache old).foldl removeRT cache) := by
      unfold evictInvalidGrant
      rw [if_pos herr]
      unfold getJsonVal
      rw [hold]
      rfl
    rw [hev]
    dsimp only
    unfold rotateRefreshToken
    by_cases hk : hasKey content "refresh_token" = true
    · rw [if_pos hk]
      unfold getJsonVal
      rw [hold]
      dsimp only
      rw [hsearch]
    · rw [if_neg hk]
  have hproc : processResponse client cache req content requestTime =
      ((searchRTBySecret cache old).foldl removeRT cache,
        .error (.auth (errorResponseMessage (scrubSecrets content)))) := by
    unfold processResponse
    rw [hstep]
    dsimp only
    unfold processResponseAux
    rw [if_pos (show hasKey content "error" = true by simp [hasKey, herr])]
  rw [hproc]
  constructor
  · intro e he hsec
    have := List.filter_eq_nil_iff.mp hsearch e he
    simp [hsec] at this
  · exact ⟨_, rfl⟩

theorem buildToken_ok_fields (c : Content) (eon : Int) (ron : Option Int)
    (tok : AccessTokenInfo) (h : buildToken c eon ron = .ok tok) :
    tok.expires_on = eon ∧ tok.refresh_on = ron ∧ tok.token_type = tokenTypeOf c ∧
    lookupKey c "access_token" = some (.str tok.token) := by
  unfold buildToken at h
  cases hl : lookupKey c "access_token" with
  | none => rw [hl] at h; simp at h
  | some v =>
    rw [hl] at h
    cases v with
    | str s =>
      simp only [Except.ok.injEq] at h
      subst h
      exact ⟨rfl, rfl, rfl, rfl⟩
    | null => simp at h
    | bool b => simp at h
    | num n => simp at h
    | arr xs => simp at h
    | obj kvs => simp at h

theorem computeExpiresOn_ok_congr (c c' : Content) (requestTime : Int)
    (h1 : lookupKey c' "expires_on" = lookupKey c "expires_on")
    (h2 : lookupKey c' "expires_in" = lookupKey c "expires_in") (x : Int)
    (h : computeExpiresOn c' requestTime = .ok x) :
    computeExpiresOn c requestTime = .ok x := by
  unfold computeExpiresOn at h ⊢
  rw [h1, h2] at h
  cases hl : lookupKey c "expires_on" with
  | some v => rw [hl] at h; exact h
  | none =>
    rw [hl] at h
    cases hl2 : lookupKey c "expires_in" with
    | some v => rw [hl2] at h; exact h
    | none => rw [hl2] at h; simp at h

theorem computeExpiresOn_error_inv (c : Content) (requestTime : Int) (er : ProcErr)
    (h : computeExpiresOn c requestTime = .error er) :
    er = .valueErr ∨
    (lookupKey c "expires_on" = none ∧ lookupKey c "expires_in" = none ∧
      er = .auth (unexpectedResponseMessage (scrubSecrets c))) := by
  unfold computeExpiresOn at h
  cases hl : lookupKey c "expires_on" with
  | some v =>
    rw [hl] at h
    dsimp only at h
    unfold asInt at h
    cases hi : intOfJson v with
    | none =>
      rw [hi] at h
      dsimp only at h
      simp only [Except.error.injEq] at h
      exact Or.inl h.symm
    | some n => rw [hi] at h; simp at h
  | none =>
    rw [hl] at h
    dsimp only at h
    cases hl2 : lookupKey c "expires_in" with
    | some v =>
      rw [hl2] at h
      dsimp only at h
      unfold asInt at h
      cases hi : intOfJson v with
      | none =>
        rw [hi] at h
        dsimp only at h
        simp only [Except.map, Except.error.injEq] at h
        exact Or.inl h.symm
      | some n => rw [hi] at h; simp [Except.map] at h
    | none =>
      rw [hl2] at h
      dsimp only at h
      simp only [Except.error.injEq] at h
      exact Or.inr ⟨rfl, rfl, h.symm⟩

theorem computeExpiresIn_error_inv (c : Content) (requestTime eon : Int) (er : ProcErr)
    (h : computeExpiresIn c requestTime eon = .error er) : er = .valueErr := by
  unfold computeExpiresIn at h
  cases hl : lookupKey c "expires_in" with
  | some v =>
    rw [hl] at h
    dsimp only at h
    split at h
    · unfold asInt at h
      cases hi : intOfJson v with
      | none =>
        rw [hi] at h
        dsimp only at h
        simp only [Except.error.injEq] at h
        exact h.symm
      | some n => rw [hi] at h; simp at h
    · simp at h
  | none => rw [hl] at h; simp at h

theorem computeRefreshOn_error_inv (c : Content) (requestTime : Int) (er : ProcErr)
    (h : computeRefreshOn c requestTime = .error er) : er = .valueErr := by
  unfold computeRefreshOn at h
  cases hl : lookupKey c "refresh_in" with
  | some v =>
    rw [hl] at h
    dsimp only at h
    unfold asInt at h
    cases hi : intOfJson v with
    | none =>
      rw [hi] at h
      dsimp only at h
      simp only [Except.map, Except.error.injEq] at h
      exact h.symm
    | some n => rw [hi] at h; simp [Except.map] at h
  | none => rw [hl] at h; simp at h

theorem buildToken_error_inv (c : Content) (eon : Int) (ron : Option Int) (er : ProcErr)
    (h : buildToken c eon ron = .error er) : er = .typeErr ∨ er = .keyErr := by
  unfold buildToken at h
  cases hl : lookupKey c "access_token" with
  | none =>
    rw [hl] at h
    dsimp only at h
    simp only [Except.error.injEq] at h
    exact Or.inr h.symm
  | some v =>
    rw [hl] at h
    cases v with
    | str s => dsimp only at h; simp at h
    | null => dsimp only at h; simp only [Except.error.injEq] at h; exact Or.inl h.symm
    | bool b => dsimp only at h; simp only [Except.error.injEq] at h; exact Or.inl h.symm
    | num n => dsimp only at h; simp only [Except.error.injEq] at h; exact Or.inl h.symm
    | arr xs => dsimp only at h; simp only [Except.error.injEq] at h; exact Or.inl h.symm
    | obj kvs => dsimp only at h; simp only [Except.error.injEq] at h; exact Or.inl h.symm

theorem getJsonVal_error_inv (c : Content) (k : String) (er : ProcErr)
    (h : getJsonVal c k = .error er) : er = .keyErr := by
  unfold getJsonVal at h
  cases hl : lookupKey c k with
  | none =>
    rw [hl] at h
    dsimp only at h
    simp only [Except.error.injEq] at h
    exact h.symm
  | some v => rw [hl] at h; simp at h

theorem processResponseAux_auth_inv (client : Client) (cache₁ : TokenCache)
    (req : HttpRequest) (content₁ : Content) (requestTime : Int) (m : String)
    (h : processResponseAux client cache₁ req content₁ requestTime = .error (.auth m)) :
    (hasKey content₁ "error" = true ∧ m = errorResponseMessage (scrubSecrets content₁)) ∨
    (hasKey content₁ "error" = false ∧ lookupKey content₁ "expires_on" = none ∧
      lookupKey content₁ "expires_in" = none ∧
      m = unexpectedResponseMessage (scrubSecrets content₁)) := by
  unfold processResponseAux at h
  split at h
  · rename_i herr
    simp only [Except.error.injEq, ProcErr.auth.injEq] at h
    exact Or.inl ⟨herr, h.symm⟩
  · rename_i herr
    cases heon : computeExpiresOn content₁ requestTime with
    | error e =>
      rw [heon] at h
      dsimp only at h
      simp only [Except.error.injEq] at h
      subst h
      rcases computeExpiresOn_error_inv content₁ requestTime _ heon with hv | ⟨h1, h2, h3⟩
      · exact absurd hv (by simp)
      · simp only [ProcErr.auth.injEq] at h3
        exact Or.inr ⟨by simpa using herr, h1, h2, h3⟩
    | ok eon =>
      rw [heon] at h
      dsimp only at h
      cases hein : computeExpiresIn content₁ requestTime eon with
      | error e =>
        rw [hein] at h
        dsimp only at h
        simp only [Except.error.injEq] at h
        subst h
        have := computeExpiresIn_error_inv content₁ requestTime eon _ hein
        exact absurd this (by simp)
      | ok ein =>
        rw [hein] at h
        dsimp only at h
        cases hron : computeRefreshOn (synthRefreshIn content₁ ein) requestTime with
        | error e =>
          rw [hron] at h
          dsimp only at h
          simp only [Except.error.injEq] at h
          subst h
          have := computeRefreshOn_error_inv _ requestTime _ hron
          exact absurd this (by simp)
        | ok ron =>
          rw [hron] at h
          dsimp only at h
          cases htok : buildToken (synthRefreshIn content₁ ein) eon ron with
          | error e =>
            rw [htok] at h
            dsimp only at h
            simp only [Except.error.injEq] at h
            subst h
            rcases buildToken_error_inv _ _ _ _ htok with hv | hv <;> exact absurd hv (by simp)
          | ok tok =>
            rw [htok] at h
            dsimp only at h
            cases hsv : getJsonVal req.body "scope" with
            | error e =>
              rw [hsv] at h
              dsimp only at h
              simp only [Except.error.injEq] at h
              subst h
              have := getJsonVal_error_inv _ _ _ hsv
              exact absurd this (by simp)
            | ok sv =>
              rw [hsv] at h
              cases sv with
              | str s => dsimp only at h; simp at h
              | null => dsimp only at h; simp at h
              | bool b => dsimp only at h; simp at h
              | num n => dsimp only at h; simp at h
              | arr xs => dsimp only at h; simp at h
              | obj kvs => dsimp only at h; simp at h

theorem refreshGrantStep_error_inv (body content : Content) (cache : TokenCache)
    (er : ProcErr) (h : refreshGrantStep body content cache = .error er) :
    er = .keyErr := by
  unfold refreshGrantStep at h
  split at h
  · cases hev : evictInvalidGrant body content cache with
    | error e =>
      rw [hev] at h
      dsimp only at h
      simp only [Except.error.injEq] at h
      subst h
      unfold evictInvalidGrant at hev
      split at hev
      · cases hjv : getJsonVal body "refresh_token" with
        | error e2 =>
          rw [hjv] at hev
          simp only [Except.map, Except.error.injEq] at hev
          rw [← hev]
          exact getJsonVal_error_inv _ _ _ hjv
        | ok v => rw [hjv] at hev; simp [Except.map] at hev
      · simp at hev
    | ok cache₁ =>
      rw [hev] at h
      dsimp only at h
      unfold rotateRefreshToken at h
      split at h
      · cases hjv : getJsonVal body "refresh_token" with
        | error e2 =>
          rw [hjv] at h
          dsimp only at h
          simp only [Except.error.injEq] at h
          subst h
          exact getJsonVal_error_inv _ _ _ hjv
        | ok old =>
          rw [hjv] at h
          dsimp only at h
          rename_i hk
          cases hsearch : searchRTBySecret cache₁ old with
          | nil => rw [hsearch] at h; simp at h
          | cons e rest =>
            cases rest with
            | nil =>
              rw [hsearch] at h
              dsimp only at h
              cases hnv : getJsonVal content "refresh_token" with
              | error e2 =>
                rw [hnv] at h
                simp only [Except.error.injEq] at h
                subst h
                exact getJsonVal_error_inv _ _ _ hnv
              | ok ns => rw [hnv] at h; simp at h
            | cons e2 rest2 => rw [hsearch] at h; simp at h
      · simp at h
  · simp at h

theorem refreshGrantStep_ok_exists (body content : Content) (cache : TokenCache)
    (hwf : lookupKey body "grant_type" = some (.str "refresh_token") →
      hasKey body "refresh_token" = true) :
    ∃ c₁ ct₁, refreshGrantStep body content cache = .ok (c₁, ct₁) := by
  cases hres : refreshGrantStep body content cache with
  | ok pair =>
    obtain ⟨c₁, ct₁⟩ := pair
    exact ⟨c₁, ct₁, rfl⟩
  | error er =>
    exfalso
    unfold refreshGrantStep at hres
    split at hres
    · rename_i hgrant
      have hrt : ∃ v, lookupKey body "refresh_token" = some v := by
        have := hwf hgrant
        simpa [hasKey, Option.isSome_iff_exists] using this
      obtain ⟨v, hv⟩ := hrt
      have hjv : getJsonVal body "refresh_token" = .ok v := by
        unfold getJsonVal
        rw [hv]
      cases hev : evictInvalidGrant body content cache with
      | error e =>
        unfold evictInvalidGrant at hev
        split at hev
        · rw [hjv] at hev; simp [Except.map] at hev
        · simp at hev
      | ok cache₁ =>
        rw [hev] at hres
        dsimp only at hres
        unfold rotateRefreshToken at hres
        split at hres
        · rename_i hk
          rw [hjv] at hres
          dsimp only at hres
          have hct : ∃ w, lookupKey content "refresh_token" = some w := by
            simpa [hasKey, Option.isSome_iff_exists] using hk
          obtain ⟨w, hw⟩ := hct
          have hnv : getJsonVal content "refresh_token" = .ok w := by
            unfold getJsonVal
            rw [hw]
          cases hsearch : searchRTBySecret cache₁ v with
          | nil => rw [hsearch] at hres; simp at hres
          | cons e rest =>
            cases rest with
            | nil =>
              rw [hsearch] at hres
              dsimp only at hres
              rw [hnv] at hres
              simp at hres
            | cons e2 rest2 => rw [hsearch] at hres; simp at hres
        · simp at hres
    · simp at hres

theorem lookup_none_of_hasKey_false (c : Content) (k : String)
    (h : ¬hasKey c k = true) : lookupKey c k = none := by
  unfold hasKey at h
  exact Option.not_isSome_iff_eq_none.mp (by simpa using h)

theorem scrubSecrets_access (c : Content) :
    ∀ v, lookupKey (scrubSecrets c) "access_token" = some v → v = .str "***" := by
  intro v hv
  unfold scrubSecrets at hv
  by_cases h1 : hasKey c "access_token" = true
  · rw [if_pos h1] at hv
    by_cases h2 : hasKey (setKey c "access_token" (.str "***")) "refresh_token" = true
    · rw [if_pos h2] at hv
      rw [lookupKey_setKey_ne _ _ _ _ (by simp), lookupKey_setKey_self] at hv
      simpa using hv.symm
    · rw [if_neg h2] at hv
      rw [lookupKey_setKey_self] at hv
      simpa using hv.symm
  · rw [if_neg h1] at hv
    have hn : lookupKey c "access_token" = none := lookup_none_of_hasKey_false c _ h1
    by_cases h2 : hasKey c "refresh_token" = true
    · rw [if_pos h2] at hv
      rw [lookupKey_setKey_ne _ _ _ _ (by simp), hn] at hv
      simp at hv
    · rw [if_neg h2] at hv
      rw [hn] at hv
      simp at hv

theorem scrubSecrets_refresh (c : Content) :
    ∀ v, lookupKey (scrubSecrets c) "refresh_token" = some v → v = .str "***" := by
  intro v hv
  unfold scrubSecrets at hv
  by_cases h1 : hasKey c "access_token" = true
  · rw [if_pos h1] at hv
    by_cases h2 : hasKey (setKey c "access_token" (.str "***")) "refresh_token" = true
    · rw [if_pos h2] at hv
      rw [lookupKey_setKey_self] at hv
      simpa using hv.symm
    · rw [if_neg h2] at hv
      have hn : lookupKey (setKey c "access_token" (.str "***")) "refresh_token" = none :=
        lookup_none_of_hasKey_false _ _ h2
      rw [hn] at hv
      simp at hv
  · rw [if_neg h1] at hv
    by_cases h2 : hasKey c "refresh_token" = true
    · rw [if_pos h2] at hv
      rw [lookupKey_setKey_self] at hv
      simpa using hv.symm
    · rw [if_neg h2] at hv
      have hn : lookupKey c "refresh_token" = none :=
        lookup_none_of_hasKey_false _ _ h2
      rw [hn] at hv
      simp at hv

/-- C6: for a successfully processed response whose content lacks
`refresh_in`, when the computed `expires_in` (the literal field if truthy,
else `expires_on - request_time`) is at least 7200 seconds the returned
token's `refresh_on` is `request_time + expires_in // 2` (so `expires_in =
7200` yields `request_time + 3600`), and when it is below 7200 no
`refresh_in` is synthesized and `refresh_on` is `none`. -/
theorem refresh_in_synthesis
    (client : Client) (cache : TokenCache) (req : HttpRequest) (content : Content)
    (requestTime : Int) (cache' : TokenCache) (tok : AccessTokenInfo) (content₂ : Content)
    (eon ein : Int)
    (hri : lookupKey content "refresh_in" = none)
    (hon : computeExpiresOn content requestTime = .ok eon)
    (hin : computeExpiresIn content requestTime eon = .ok ein)
    (hproc : processResponse client cache req content requestTime =
      (cache', .ok (tok, content₂))) :
    (ein ≥ 7200 → tok.refresh_on = some (requestTime + Int.fdiv ein 2)) ∧
    (ein < 7200 → tok.refresh_on = none) := by
  unfold processResponse at hproc
  cases hstep : refreshGrantStep req.body content cache with
  | error e => rw [hstep] at hproc; simp at hproc
  | ok pair =>
    obtain ⟨cache₁, content₁⟩ := pair
    rw [hstep] at hproc
    dsimp only at hproc
    cases haux : processResponseAux client cache₁ req content₁ requestTime with
    | error e => rw [haux] at hproc; simp at hproc
    | ok res =>
      obtain ⟨tok', cache₂, ct₂⟩ := res
      rw [haux] at hproc
      dsimp only at hproc
      simp only [Prod.mk.injEq, Except.ok.injEq] at hproc
      obtain ⟨hcache, htokEq, hctEq⟩ := hproc
      obtain ⟨herr1, eon', ein', ron, scopeStr, hon', hin', hct₂, hron, htokb, hscope, hc₂⟩ :=
        processResponseAux_ok_inv client cache₁ req content₁ requestTime tok' cache₂
          ct₂ haux
      have hleo : lookupKey content₁ "expires_on" = lookupKey content "expires_on" :=
        refreshGrantStep_ok_lookup _ _ _ _ _ _ hstep (by simp)
      have hlei : lookupKey content₁ "expires_in" = lookupKey content "expires_in" :=
        refreshGrantStep_ok_lookup _ _ _ _ _ _ hstep (by simp)
      have hlri : lookupKey content₁ "refresh_in" = none := by
        rw [refreshGrantStep_ok_lookup _ _ _ _ _ _ hstep (by simp)]
        exact hri
      have hon'' : computeExpiresOn content requestTime = .ok eon' :=
        computeExpiresOn_ok_congr content content₁ requestTime hleo hlei eon' hon'
      have heonEq : eon' = eon := by
        rw [hon''] at hon
        exact (Except.ok.injEq _ _).mp hon
      have hin'' : computeExpiresIn content₁ requestTime eon' = .ok ein' := hin'
      have hinEq : ein' = ein := by
        have : computeExpiresIn content requestTime eon = .ok ein' := by
          unfold computeExpiresIn at hin'' ⊢
          rw [← hlei, ← heonEq]
          exact hin''
        rw [this] at hin
        exact (Except.ok.injEq _ _).mp hin
      subst heonEq hinEq
      rw [hct₂] at hron htokb
      have hriB : hasKey content₁ "refresh_in" = false := by
        simp [hasKey, hlri]
      constructor
      · intro hge
        have hsyn : synthRefreshIn content₁ ein' =
            setKey content₁ "refresh_in" (.num (Int.fdiv ein' 2)) := by
          unfold synthRefreshIn
          rw [if_pos]
          simp [hriB, hge]
        rw [hsyn] at hron
        unfold computeRefreshOn at hron
        rw [lookupKey_setKey_self] at hron
        dsimp only at hron
        unfold asInt at hron
        dsimp only [intOfJson] at hron
        simp only [Except.map, Except.ok.injEq] at hron
        obtain ⟨heo, hro, -, -⟩ := buildToken_ok_fields _ _ _ _ htokb
        rw [← htokEq, hro, ← hron]
      · intro hlt
        have hsyn : synthRefreshIn content₁ ein' = content₁ := by
          unfold synthRefreshIn
          rw [if_neg]
          simp [hriB]
          omega
        rw [hsyn] at hron
        unfold computeRefreshOn at hron
        rw [hlri] at hron
        dsimp only at hron
        simp only [Except.ok.injEq] at hron
        obtain ⟨heo, hro, -, -⟩ := buildToken_ok_fields _ _ _ _ htokb
        rw [← htokEq, hro, ← hron]

/-- C7 (amended): with a well-formed request body, response processing raises
a typed authentication error exactly when the content carries an `error`
field or lacks both `expires_on` and `expires_in`; in either case the message
is built from the content only after `_scrub_secrets` has replaced its
`access_token` and `refresh_token` fields by `"***"`. (The original claim
that the message can never contain the literal secret values fails when a
secret value also occurs in another message-visible field — see the
counterexample.) -/
theorem error_raising_and_scrubbing
    (client : Client) (cache : TokenCache) (req : HttpRequest) (content : Content)
    (requestTime : Int)
    (hwf : lookupKey req.body "grant_type" = some (.str "refresh_token") →
      hasKey req.body "refresh_token" = true) :
    ((∃ m, (processResponse client cache req content requestTime).2 = .error (.auth m)) ↔
      (hasKey content "error" = true ∨
        (lookupKey content "expires_on" = none ∧ lookupKey content "expires_in" = none))) ∧
    (∀ m, (processResponse client cache req content requestTime).2 = .error (.auth m) →
      ∃ c', (m = errorResponseMessage (scrubSecrets c') ∨
          m = unexpectedResponseMessage (scrubSecrets c')) ∧
        (∀ v, lookupKey (scrubSecrets c') "access_token" = some v → v = .str "***") ∧
        (∀ v, lookupKey (scrubSecrets c') "refresh_token" = some v → v = .str "***")) := by
  obtain ⟨cache₁, content₁, hstep⟩ := refreshGrantStep_ok_exists req.body content cache hwf
  have hle : lookupKey content₁ "error" = lookupKey content "error" :=
    refreshGrantStep_ok_lookup _ _ _ _ _ _ hstep (by simp)
  have hleo : lookupKey content₁ "expires_on" = lookupKey content "expires_on" :=
    refreshGrantStep_ok_lookup _ _ _ _ _ _ hstep (by simp)
  have hlei : lookupKey content₁ "expires_in" = lookupKey content "expires_in" :=
    refreshGrantStep_ok_lookup _ _ _ _ _ _ hstep (by simp)
  have hsnd : (processResponse client cache req content requestTime).2 =
      (match processResponseAux client cache₁ req content₁ requestTime with
        | .error e => .error e
        | .ok (tok, _, ct₂) => .ok (tok, ct₂)) := by
    unfold processResponse
    rw [hstep]
    dsimp only
    cases haux : processResponseAux client cache₁ req content₁ requestTime with
    | error e => rfl
    | ok res =>
      obtain ⟨tok, cache₂, ct₂⟩ := res
      rfl
  constructor
  · constructor
    · rintro ⟨m, hm⟩
      rw [hsnd] at hm
      cases haux : processResponseAux client cache₁ req content₁ requestTime with
      | error e =>
        rw [haux] at hm
        dsimp only at hm
        simp only [Except.error.injEq] at hm
        subst hm
        rcases processResponseAux_auth_inv client cache₁ req content₁ requestTime m haux with
          ⟨h1, -⟩ | ⟨-, h2, h3, -⟩
        · left
          rw [hasKey, hle] at h1
          exact h1
        · right
          rw [hleo] at h2
          rw [hlei] at h3
          exact ⟨h2, h3⟩
      | ok res =>
        obtain ⟨tok, cache₂, ct₂⟩ := res
        rw [haux] at hm
        simp at hm
    · intro hcond
      rw [hsnd]
      by_cases herr : hasKey content₁ "error" = true
      · have : processResponseAux client cache₁ req content₁ requestTime =
            .error (.auth (errorResponseMessage (scrubSecrets content₁))) := by
          unfold processResponseAux
          rw [if_pos herr]
        rw [this]
        exact ⟨_, rfl⟩
      · have hcontErr : lookupKey content "error" = none := by
          have := lookup_none_of_hasKey_false content₁ "error" herr
          rw [hle] at this
          exact this
        have hexp : lookupKey content "expires_on" = none ∧
            lookupKey content "expires_in" = none := by
          rcases hcond with h | h
          · exfalso
            rw [hasKey, hcontErr] at h
            simp at h
          · exact h
        have heonErr : computeExpiresOn content₁ requestTime =
            .error (.auth (unexpectedResponseMessage (scrubSecrets content₁))) := by
          unfold computeExpiresOn
          rw [hleo, hlei, hexp.1, hexp.2]
        have : processResponseAux client cache₁ req content₁ requestTime =
            .error (.auth (unexpectedResponseMessage (scrubSecrets content₁))) := by
          unfold processResponseAux
          rw [if_neg herr, heonErr]
        rw [this]
        exact ⟨_, rfl⟩
  · intro m hm
    rw [hsnd] at hm
    cases haux : processResponseAux client cache₁ req content₁ requestTime with
    | error e =>
      rw [haux] at hm
      dsimp only at hm
      simp only [Except.error.injEq] at hm
      subst hm
      rcases processResponseAux_auth_inv client cache₁ req content₁ requestTime m haux with
        ⟨-, h2⟩ | ⟨-, -, -, h2⟩
      · exact ⟨content₁, Or.inl h2, scrubSecrets_access content₁, scrubSecrets_refresh content₁⟩
      · exact ⟨content₁, Or.inr h2, scrubSecrets_access content₁, scrubSecrets_refresh content₁⟩
    | ok res =>
      obtain ⟨tok, cache₂, ct₂⟩ := res
      rw [haux] at hm
      simp at hm

/-- C7 counterexample: a provider error response whose `error_description`
repeats the `access_token` value. Scrubbing replaces the `access_token` field
itself, but the raised message still contains the secret's literal value, so
the claim's "the message never contains their literal values" is false as a
universal statement. -/
theorem error_message_contains_secret_counterexample :
    (processResponse (initClient "t" "c" "https://h" none none none none) TokenCache.empty
        ⟨"https://h/t/oauth2/v2.0/token",
          [("grant_type", .str "client_credentials"), ("scope", .str "s")]⟩
        [("error", .str "bad"), ("error_description", .str "tok123"),
          ("access_token", .str "tok123")]
        100).2 =
      .error (.auth "Microsoft Entra ID error \x27(bad) tok123\x27") ∧
    lcSub "tok123".data "Microsoft Entra ID error \x27(bad) tok123\x27".data = true ∧
    lookupKey
        [("error", Json.str "bad"), ("error_description", Json.str "tok123"),
          ("access_token", Json.str "tok123")] "access_token" = some (.str "tok123") := by
  refine ⟨?_, ?_, rfl⟩
  · rfl
  · decide

/-- Witness for C1: a concrete rotation with exactly one matching entry; the
final cache holds the rotated secret only. -/
theorem refresh_token_rotation_witness :
    (processResponse (initClient "t" "c" "https://h" none none none none)
        ⟨[], [⟨Json.str "OLD", ["s"]⟩]⟩
        ⟨"https://h/t/oauth2/v2.0/token",
          [("grant_type", Json.str "refresh_token"), ("refresh_token", Json.str "OLD"),
            ("scope", Json.str "s")]⟩
        [("refresh_token", Json.str "NEW"), ("expires_in", Json.num 3600),
          ("access_token", Json.str "AT")] 100).1.refreshTokens =
      [⟨Json.str "NEW", ["s"]⟩] := by
  have h := refresh_token_rotation (initClient "t" "c" "https://h" none none none none)
    ⟨[], [⟨Json.str "OLD", ["s"]⟩]⟩
    ⟨"https://h/t/oauth2/v2.0/token",
      [("grant_type", Json.str "refresh_token"), ("refresh_token", Json.str "OLD"),
        ("scope", Json.str "s")]⟩
    [("refresh_token", Json.str "NEW"), ("expires_in", Json.num 3600),
      ("access_token", Json.str "AT")] 100 (Json.str "OLD") (Json.str "NEW")
    rfl rfl rfl rfl
  have h2 := (h.1 ⟨Json.str "OLD", ["s"]⟩ rfl).1
  rw [h2]
  rfl

/-- Witness for C2: a concrete `invalid_grant` response evicts the matching
entry and the call raises. -/
theorem invalid_grant_evicts_refresh_tokens_witness :
    (∀ e ∈ (processResponse (initClient "t" "c" "https://h" none none none none)
        ⟨[], [⟨Json.str "OLD", ["s"]⟩]⟩
        ⟨"https://h/t/oauth2/v2.0/token",
          [("grant_type", Json.str "refresh_token"), ("refresh_token", Json.str "OLD"),
            ("scope", Json.str "s")]⟩
        [("error", Json.str "invalid_grant")] 100).1.refreshTokens,
      e.secret ≠ Json.str "OLD") ∧
    ∃ m, (processResponse (initClient "t" "c" "https://h" none none none none)
        ⟨[], [⟨Json.str "OLD", ["s"]⟩]⟩
        ⟨"https://h/t/oauth2/v2.0/token",
          [("grant_type", Json.str "refresh_token"), ("refresh_token", Json.str "OLD"),
            ("scope", Json.str "s")]⟩
        [("error", Json.str "invalid_grant")] 100).2 = .error (.auth m) :=
  invalid_grant_evicts_refresh_tokens (initClient "t" "c" "https://h" none none none none)
    ⟨[], [⟨Json.str "OLD", ["s"]⟩]⟩
    ⟨"https://h/t/oauth2/v2.0/token",
      [("grant_type", Json.str "refresh_token"), ("refresh_token", Json.str "OLD"),
        ("scope", Json.str "s")]⟩
    [("error", Json.str "invalid_grant")] 100 (Json.str "OLD") rfl rfl rfl

/-- Witness for C6: `expires_in = 7200` and no `refresh_in` yields
`refresh_on = request_time + 3600`. -/
theorem refresh_in_synthesis_witness :
    (processResponse (initClient "t" "c" "https://h" none none none none)
        TokenCache.empty
        ⟨"https://h/t/oauth2/v2.0/token",
          [("grant_type", Json.str "client_credentials"), ("scope", Json.str "s")]⟩
        [("expires_in", Json.num 7200), ("access_token", Json.str "AT")] 100).2 =
      .ok (⟨"AT", 7300, "Bearer", some 3700⟩,
        [("expires_in", Json.num 7200), ("access_token", Json.str "AT"),
          ("refresh_in", Json.num 3600)]) ∧
    (⟨"AT", 7300, "Bearer", some 3700⟩ : AccessTokenInfo).refresh_on =
      some (100 + Int.fdiv 7200 2) := by
  constructor
  · rfl
  · exact (refresh_in_synthesis (initClient "t" "c" "https://h" none none none none)
      TokenCache.empty
      ⟨"https://h/t/oauth2/v2.0/token",
        [("grant_type", Json.str "client_credentials"), ("scope", Json.str "s")]⟩
      [("expires_in", Json.num 7200), ("access_token", Json.str "AT")] 100
      (processResponse (initClient "t" "c" "https://h" none none none none)
        TokenCache.empty
        ⟨"https://h/t/oauth2/v2.0/token",
          [("grant_type", Json.str "client_credentials"), ("scope", Json.str "s")]⟩
        [("expires_in", Json.num 7200), ("access_token", Json.str "AT")] 100).1
      ⟨"AT", 7300, "Bearer", some 3700⟩
      [("expires_in", Json.num 7200), ("access_token", Json.str "AT"),
        ("refresh_in", Json.num 3600)]
      7300 7200 rfl rfl rfl rfl).1 (by norm_num)

/-- Witness for C7 at a concrete provider-error response. -/
theorem error_raising_and_scrubbing_witness :
    ((∃ m, (processResponse (initClient "t" "c" "https://h" none none none none)
        TokenCache.empty
        ⟨"https://h/t/oauth2/v2.0/token",
          [("grant_type", Json.str "client_credentials"), ("scope", Json.str "s")]⟩
        [("error", Json.str "bad")] 0).2 = .error (.auth m)) ↔
      (hasKey [("error", Json.str "bad")] "error" = true ∨
        (lookupKey [("error", Json.str "bad")] "expires_on" = none ∧
          lookupKey [("error", Json.str "bad")] "expires_in" = none))) ∧
    (∀ m, (processResponse (initClient "t" "c" "https://h" none none none none)
        TokenCache.empty
        ⟨"https://h/t/oauth2/v2.0/token",
          [("grant_type", Json.str "client_credentials"), ("scope", Json.str "s")]⟩
        [("error", Json.str "bad")] 0).2 = .error (.auth m) →
      ∃ c', (m = errorResponseMessage (scrubSecrets c') ∨
          m = unexpectedResponseMessage (scrubSecrets c')) ∧
        (∀ v, lookupKey (scrubSecrets c') "access_token" = some v → v = .str "***") ∧
        (∀ v, lookupKey (scrubSecrets c') "refresh_token" = some v → v = .str "***")) :=
  error_raising_and_scrubbing (initClient "t" "c" "https://h" none none none none)
    TokenCache.empty
    ⟨"https://h/t/oauth2/v2.0/token",
      [("grant_type", Json.str "client_credentials"), ("scope", Json.str "s")]⟩
    [("error", Json.str "bad")] 0 (fun h => by simp at h)

/-- The dict produced by `__getstate__`: every instance attribute, with the
two cache attributes either present (as a pair) or deleted. -/
structure ClientState where
  authority : String
  tenant_id : String
  client_id : String
  additionally_allowed_tenants : List String
  cacheFields : Option (Option TokenCache × Option TokenCache)
  cache_options : Option CachePersistenceOptions
  custom_cache : Bool
  is_adfs : Bool
deriving DecidableEq

/-- Model of `AadClientBase.__getstate__` (lines 388-394): copy the instance dict and
delete `_cache`/`_cae_cache` when the client did not receive caller-supplied
caches. -/
def getState (c : Client) : ClientState :=
  { authority := c.authority
    tenant_id := c.tenant_id
    client_id := c.client_id
    additionally_allowed_tenants := c.additionally_allowed_tenants
    cacheFields := if c.custom_cache then some (c.cache, c.cae_cache) else none
    cache_options := c.cache_options
    custom_cache := c.custom_cache
    is_adfs := c.is_adfs }

/-- Model of `AadClientBase.__setstate__` (lines 396-401): restore the instance dict
and re-create the cache attributes as `None` when they were not
caller-supplied. -/
def setState (s : ClientState) : Client :=
  { authority := s.authority
    tenant_id := s.tenant_id
    client_id := s.client_id
    additionally_allowed_tenants := s.additionally_allowed_tenants
    cache := if s.custom_cache then (s.cacheFields.getD (none, none)).1 else none
    cae_cache := if s.custom_cache then (s.cacheFields.getD (none, none)).2 else none
    cache_options := s.cache_options
    custom_cache := s.custom_cache
    is_adfs := s.is_adfs }

/-- A client whose cache attributes have been replaced — the only mutation
the cache lifecycle (`_initialize_cache`, lines 72-83) performs after
construction. -/
def clientWithCaches (c : Client) (x y : Option TokenCache) : Client :=
  { c with cache := x, cae_cache := y }

/-- C8: for a client built by `__init__` and later cache-lifecycle updates,
snapshot serialization omits the cache attributes exactly when the caller
supplied no cache, in which case restore carries every other field through
unchanged and re-creates the caches as uninitialized; when the caller
supplied a cache, the snapshot holds the current cache objects verbatim and
restore reproduces the client exactly. -/
theorem pickling_excludes_internal_caches
    (tenant_id client_id authority : String) (cacheArg caeArg : Option TokenCache)
    (allowed : Option (List String)) (opts : Option CachePersistenceOptions)
    (x y : Option TokenCache) :
    ((getState (clientWithCaches
        (initClient tenant_id client_id authority cacheArg caeArg allowed opts) x y)).cacheFields
          = none ↔ (cacheArg = none ∧ caeArg = none)) ∧
    ((cacheArg = none ∧ caeArg = none) →
      setState (getState (clientWithCaches
          (initClient tenant_id client_id authority cacheArg caeArg allowed opts) x y)) =
        { clientWithCaches
            (initClient tenant_id client_id authority cacheArg caeArg allowed opts) x y with
          cache := none, cae_cache := none }) ∧
    (¬(cacheArg = none ∧ caeArg = none) →
      (getState (clientWithCaches
          (initClient tenant_id client_id authority cacheArg caeArg allowed opts) x y)).cacheFields
        = some (x, y) ∧
      setState (getState (clientWithCaches
          (initClient tenant_id client_id authority cacheArg caeArg allowed opts) x y)) =
        clientWithCaches
          (initClient tenant_id client_id authority cacheArg caeArg allowed opts) x y) := by
  cases cacheArg with
  | none =>
    cases caeArg with
    | none => simp [getState, setState, initClient, clientWithCaches]
    | some cc => simp [getState, setState, initClient, clientWithCaches]
  | some c0 =>
    cases caeArg with
    | none => simp [getState, setState, initClient, clientWithCaches]
    | some cc => simp [getState, setState, initClient, clientWithCaches]

/-- Witness for C8 in both regimes: no caller-supplied cache (caches dropped
and re-created as none) and a caller-supplied cache (carried verbatim). -/
theorem pickling_excludes_internal_caches_witness :
    ((getState (clientWithCaches (initClient "t" "c" "https://h" none none none none)
        (some TokenCache.empty) none)).cacheFields = none) ∧
    setState (getState (clientWithCaches (initClient "t" "c" "https://h" none none none none)
        (some TokenCache.empty) none)) =
      { clientWithCaches (initClient "t" "c" "https://h" none none none none)
          (some TokenCache.empty) none with cache := none, cae_cache := none } ∧
    ((getState (clientWithCaches
        (initClient "t" "c" "https://h" (some TokenCache.empty) none none none)
        (some TokenCache.empty) none)).cacheFields = some (some TokenCache.empty, none) ∧
      setState (getState (clientWithCaches
          (initClient "t" "c" "https://h" (some TokenCache.empty) none none none)
          (some TokenCache.empty) none)) =
        clientWithCaches (initClient "t" "c" "https://h" (some TokenCache.empty) none none none)
          (some TokenCache.empty) none) := by
  have h1 := pickling_excludes_internal_caches "t" "c" "https://h" none none none none
    (some TokenCache.empty) none
  have h2 := pickling_excludes_internal_caches "t" "c" "https://h" (some TokenCache.empty)
    none none none (some TokenCache.empty) none
  exact ⟨h1.1.mpr ⟨rfl, rfl⟩, h1.2.1 ⟨rfl, rfl⟩, h2.2.2 (by simp)⟩

/-- Hexadecimal digit character (lowercase, as Python's `\uXXXX` escapes). -/
def hexDigit (n : Nat) : Char :=
  if n < 10 then Char.ofNat (48 + n) else Char.ofNat (97 + (n - 10))

/-- Four-digit hexadecimal rendering of a code point. -/
def hex4 (n : Nat) : List Char :=
  [hexDigit (n / 4096 % 16), hexDigit (n / 256 % 16), hexDigit (n / 16 % 16), hexDigit (n % 16)]

/-- Escape one character as `json.dumps` (default `ensure_ascii=True`) does:
quote and backslash escapes, short escapes for common control characters,
`\uXXXX` for other control and all non-ASCII characters. -/
def escapeJsonChar (c : Char) : List Char :=
  if c = Char.ofNat 34 then [Char.ofNat 92, Char.ofNat 34]
  else if c = Char.ofNat 92 then [Char.ofNat 92, Char.ofNat 92]
  else if c = Char.ofNat 10 then [Char.ofNat 92, 'n']
  else if c = Char.ofNat 13 then [Char.ofNat 92, 'r']
  else if c = Char.ofNat 9 then [Char.ofNat 92, 't']
  else if c.toNat = 8 then [Char.ofNat 92, 'b']
  else if c.toNat = 12 then [Char.ofNat 92, 'f']
  else if c.toNat < 32 || c.toNat > 126 then Char.ofNat 92 :: 'u' :: hex4 (c.toNat % 65536)
  else [c]

/-- JSON string literal serialization, as `json.dumps` renders `str` values. -/
def escapeJsonString (s : String) : String :=
  String.mk (Char.ofNat 34 :: (s.data.map escapeJsonChar).flatten ++ [Char.ofNat 34])

mutual

/-- Model of `json.dumps` with its default separators (`", "` and `": "`) and
`ensure_ascii`, on the modelled JSON values. -/
def jsonDumps : Json → String
  | .null => "null"
  | .bool true => "true"
  | .bool false => "false"
  | .num n => toString n
  | .str s => escapeJsonString s
  | .arr xs => "[" ++ jsonDumpsList xs ++ "]"
  | .obj kvs => "\x7b" ++ jsonDumpsObj kvs ++ "\x7d"

/-- Comma-separated serialization of array items. -/
def jsonDumpsList : List Json → String
  | [] => ""
  | [x] => jsonDumps x
  | x :: y :: t => jsonDumps x ++ ", " ++ jsonDumpsList (y :: t)

/-- Comma-separated serialization of object members. -/
def jsonDumpsObj : List (String × Json) → String
  | [] => ""
  | [(k, v)] => escapeJsonString k ++ ": " ++ jsonDumps v
  | (k, v) :: p :: t => escapeJsonString k ++ ": " ++ jsonDumps v ++ ", " ++ jsonDumpsObj (p :: t)

end

/-- UTF-8 encoding of one character. -/
def utf8Char (c : Char) : List Nat :=
  let n := c.toNat
  if n < 128 then [n]
  else if n < 2048 then [192 + n / 64, 128 + n % 64]
  else if n < 65536 then [224 + n / 4096, 128 + n / 64 % 64, 128 + n % 64]
  else [240 + n / 262144, 128 + n / 4096 % 64, 128 + n / 64 % 64, 128 + n % 64]

/-- Python `s.encode("utf-8")` as a byte list. -/
def utf8Bytes (s : String) : List Nat :=
  (s.data.map utf8Char).flatten

/-- The urlsafe base64 alphabet (RFC 4648 §5). -/
def b64Alphabet : List Char :=
  "ABCDEFGHIJKLMNOPQRSTUVWXYZabcdefghijklmnopqrstuvwxyz0123456789-_".data

/-- The alphabet character for a 6-bit group. -/
def b64Char (n : Nat) : Char :=
  b64Alphabet.getD (n % 64) 'A'

/-- Model of `base64.urlsafe_b64encode` over byte triples: four alphabet characters
per full triple, with `'='` padding for a trailing one- or two-byte group —
padding is emitted, exactly as Python's `base64` module does. -/
def b64uChunks : List Nat → List Char
  | [] => []
  | [b1] => [b64Char (b1 / 4), b64Char (b1 % 4 * 16), '=', '=']
  | [b1, b2] => [b64Char (b1 / 4), b64Char (b1 % 4 * 16 + b2 / 16), b64Char (b2 % 16 * 4), '=']
  | b1 :: b2 :: b3 :: rest =>
    b64Char (b1 / 4) :: b64Char (b1 % 4 * 16 + b2 / 16) ::
      b64Char (b2 % 16 * 4 + b3 / 64) :: b64Char (b3 % 64) :: b64uChunks rest

/-- Model of `base64.urlsafe_b64encode` producing a string. -/
def b64uEncode (bs : List Nat) : String :=
  String.mk (b64uChunks bs)

/-- The certificate interface the client consumes (an external collaborator:
SHA-1 and SHA-256 thumbprints plus RS256/PS256 signing callbacks). -/
structure AadClientCertificate where
  thumbprint : String
  sha256_thumbprint : String
  sign_rs256 : List Nat → List Nat
  sign_ps256 : List Nat → List Nat

/-- The JWT header dict of `_get_client_certificate_assertion`
(lines 243-250): `typ`, then `alg` and the thumbprint key by ADFS mode. -/
def assertionHeaders (client : Client) (cert : AadClientCertificate) :
    List (String × Json) :=
  if client.is_adfs then
    [("typ", .str "JWT"), ("alg", .str "RS256"), ("x5t", .str cert.thumbprint)]
  else
    [("typ", .str "JWT"), ("alg", .str "PS256"), ("x5t#S256", .str cert.sha256_thumbprint)]

/-- The JWT payload dict of `_get_client_certificate_assertion`
(lines 253-262); `now` and the fresh `jti` are taken as parameters. -/
def assertionPayload (client : Client) (kwargs : Kwargs) (now : Int) (jti : String) :
    List (String × Json) :=
  [("jti", .str jti), ("aud", .str (getTokenUrl client kwargs)),
    ("iss", .str client.client_id), ("sub", .str client.client_id),
    ("nbf", .num now), ("exp", .num (now + 60 * 30))]

/-- Model of `AadClientBase._get_client_certificate_assertion` (lines 241-266):
serialize and urlsafe-base64-encode header and payload, join with `"."`,
sign (PS256, or RS256 in ADFS mode) and append the encoded signature. -/
def getClientCertificateAssertion (client : Client) (cert : AadClientCertificate)
    (kwargs : Kwargs) (now : Int) (jti : String) : String :=
  let jws := b64uEncode (utf8Bytes (jsonDumps (.obj (assertionHeaders client cert)))) ++ "." ++
    b64uEncode (utf8Bytes (jsonDumps (.obj (assertionPayload client kwargs now jti))))
  let signature :=
    if client.is_adfs then cert.sign_rs256 (utf8Bytes jws) else cert.sign_ps256 (utf8Bytes jws)
  jws ++ "." ++ b64uEncode signature

/-- Membership in the urlsafe alphabet. -/
def isB64UrlChar (c : Char) : Bool :=
  b64Alphabet.contains c

/-- A compact JWT in the RFC 7515 sense: exactly three dot-separated,
non-empty segments of unpadded base64url characters. -/
def isCompactJwt (s : String) : Bool :=
  match splitOnPred (fun c => c == '.') s.data with
  | [h, p, sg] => [h, p, sg].all (fun seg => !seg.isEmpty && seg.all isB64UrlChar)
  | _ => false

theorem b64Char_mem (n : Nat) : b64Char n ∈ b64Alphabet ∨ b64Char n = '=' := by
  left
  unfold b64Char
  have hlt : n % 64 < b64Alphabet.length := by
    have : b64Alphabet.length = 64 := rfl
    rw [this]
    exact Nat.mod_lt n (by norm_num)
  rw [List.getD_eq_getElem b64Alphabet 'A' hlt]
  exact List.getElem_mem hlt

theorem b64uChunks_chars (bs : List Nat) :
    ∀ c ∈ b64uChunks bs, c ∈ b64Alphabet ∨ c = '=' := by
  induction bs using b64uChunks.induct with
  | case1 => intro c hc; simp [b64uChunks] at hc
  | case2 b1 =>
    intro c hc
    simp only [b64uChunks, List.mem_cons, List.mem_singleton, List.not_mem_nil, or_false] at hc
    rcases hc with rfl | rfl | rfl | rfl
    · exact b64Char_mem _
    · exact b64Char_mem _
    · exact Or.inr rfl
    · exact Or.inr rfl
  | case3 b1 b2 =>
    intro c hc
    simp only [b64uChunks, List.mem_cons, List.mem_singleton, List.not_mem_nil, or_false] at hc
    rcases hc with rfl | rfl | rfl | rfl
    · exact b64Char_mem _
    · exact b64Char_mem _
    · exact b64Char_mem _
    · exact Or.inr rfl
  | case4 b1 b2 b3 rest ih =>
    intro c hc
    simp only [b64uChunks, List.mem_cons] at hc
    rcases hc with rfl | rfl | rfl | rfl | hc
    · exact b64Char_mem _
    · exact b64Char_mem _
    · exact b64Char_mem _
    · exact b64Char_mem _
    · exact ih c hc

/-- C3 (amended): every produced client assertion is three `"."`-joined
urlsafe-base64 segments — header, payload and signature encodings — whose
characters come from the urlsafe alphabet plus the `'='` pad; Python's
`base64.urlsafe_b64encode` keeps the padding, so the result is a standard
compact JWT (which requires unpadded segments) only when no segment needs
padding. -/
theorem client_assertion_segments (client : Client) (cert : AadClientCertificate)
    (kwargs : Kwargs) (now : Int) (jti : String) :
    ∃ s1 s2 s3,
      getClientCertificateAssertion client cert kwargs now jti =
        s1 ++ "." ++ s2 ++ "." ++ s3 ∧
      s1 = b64uEncode (utf8Bytes (jsonDumps (.obj (assertionHeaders client cert)))) ∧
      s2 = b64uEncode (utf8Bytes (jsonDumps (.obj (assertionPayload client kwargs now jti)))) ∧
      (∀ c ∈ s1.data, c ∈ b64Alphabet ∨ c = '=') ∧
      (∀ c ∈ s2.data, c ∈ b64Alphabet ∨ c = '=') ∧
      (∀ c ∈ s3.data, c ∈ b64Alphabet ∨ c = '=') := by
  refine ⟨b64uEncode (utf8Bytes (jsonDumps (.obj (assertionHeaders client cert)))),
    b64uEncode (utf8Bytes (jsonDumps (.obj (assertionPayload client kwargs now jti)))),
    b64uEncode (if client.is_adfs then
      cert.sign_rs256 (utf8Bytes
        (b64uEncode (utf8Bytes (jsonDumps (.obj (assertionHeaders client cert)))) ++ "." ++
          b64uEncode (utf8Bytes (jsonDumps (.obj (assertionPayload client kwargs now jti))))))
    else
      cert.sign_ps256 (utf8Bytes
        (b64uEncode (utf8Bytes (jsonDumps (.obj (assertionHeaders client cert)))) ++ "." ++
          b64uEncode (utf8Bytes (jsonDumps (.obj (assertionPayload client kwargs now jti))))))),
    rfl, rfl, rfl, ?_, ?_, ?_⟩
  · exact b64uChunks_chars _
  · exact b64uChunks_chars _
  · exact b64uChunks_chars _

/-- C3 counterexample: with a concrete certificate the emitted assertion
contains `'='` padding characters and so is not a valid compact JWT. -/
theorem client_assertion_padding_counterexample :
    isCompactJwt (getClientCertificateAssertion
      (initClient "t" "c" "https://h" none none none none)
      ⟨"T", "S", fun _ => [1, 2], fun _ => [1, 2]⟩ {} 0 "j") = false ∧
    (getClientCertificateAssertion
      (initClient "t" "c" "https://h" none none none none)
      ⟨"T", "S", fun _ => [1, 2], fun _ => [1, 2]⟩ {} 0 "j").data.contains '=' = true := by
  exact ⟨rfl, rfl⟩

/-- C4: in every produced assertion the payload satisfies
`exp - nbf = 1800` and `aud` is the constructed token-endpoint URL, and the
header carries `alg=RS256` with the `x5t` SHA-1 thumbprint exactly when the
tenant id case-insensitively equals `"adfs"`, else `alg=PS256` with the
`x5t#S256` SHA-256 thumbprint. -/
theorem client_assertion_claims
    (tenant_id client_id authority : String) (cacheArg caeArg : Option TokenCache)
    (allowed : Option (List String)) (opts : Option CachePersistenceOptions)
    (cert : AadClientCertificate) (kwargs : Kwargs) (now : Int) (jti : String) :
    (∃ e n, lookupKey (assertionPayload
          (initClient tenant_id client_id authority cacheArg caeArg allowed opts)
          kwargs now jti) "exp" = some (.num e) ∧
        lookupKey (assertionPayload
          (initClient tenant_id client_id authority cacheArg caeArg allowed opts)
          kwargs now jti) "nbf" = some (.num n) ∧ e - n = 1800) ∧
    lookupKey (assertionPayload
        (initClient tenant_id client_id authority cacheArg caeArg allowed opts)
        kwargs now jti) "aud" =
      some (.str (getTokenUrl
        (initClient tenant_id client_id authority cacheArg caeArg allowed opts) kwargs)) ∧
    (pyLower tenant_id = "adfs" →
      assertionHeaders (initClient tenant_id client_id authority cacheArg caeArg allowed opts)
          cert =
        [("typ", .str "JWT"), ("alg", .str "RS256"), ("x5t", .str cert.thumbprint)]) ∧
    (pyLower tenant_id ≠ "adfs" →
      assertionHeaders (initClient tenant_id client_id authority cacheArg caeArg allowed opts)
          cert =
        [("typ", .str "JWT"), ("alg", .str "PS256"),
          ("x5t#S256", .str cert.sha256_thumbprint)]) := by
  refine ⟨⟨now + 60 * 30, now, ?_, ?_, by ring⟩, ?_, ?_, ?_⟩
  · simp [assertionPayload]
  · simp [assertionPayload]
  · simp [assertionPayload]
  · intro h
    simp [assertionHeaders, initClient, h]
  · intro h
    simp [assertionHeaders, initClient, h]

/-- Witness for C4 in ADFS mode with a mixed-case tenant id. -/
theorem client_assertion_claims_witness :
    (∃ e n, lookupKey (assertionPayload
          (initClient "ADFS" "c" "https://h" none none none none)
          {} 50 "j") "exp" = some (.num e) ∧
        lookupKey (assertionPayload
          (initClient "ADFS" "c" "https://h" none none none none)
          {} 50 "j") "nbf" = some (.num n) ∧ e - n = 1800) ∧
    lookupKey (assertionPayload (initClient "ADFS" "c" "https://h" none none none none)
        {} 50 "j") "aud" =
      some (.str (getTokenUrl (initClient "ADFS" "c" "https://h" none none none none) {})) ∧
    assertionHeaders (initClient "ADFS" "c" "https://h" none none none none)
        ⟨"T", "S", fun _ => [], fun _ => []⟩ =
      [("typ", .str "JWT"), ("alg", .str "RS256"), ("x5t", .str "T")] := by
  have h := client_assertion_claims "ADFS" "c" "https://h" none none none none
    ⟨"T", "S", fun _ => [], fun _ => []⟩ {} 50 "j"
  exact ⟨h.1, h.2.1, h.2.2.1 rfl⟩

/-- Skip JSON whitespace. -/
def skipWs : List Char → List Char
  | [] => []
  | c :: t =>
    if c = ' ' || c = Char.ofNat 9 || c = Char.ofNat 10 || c = Char.ofNat 13 then skipWs t
    else c :: t

/-- Parse the body of a JSON string literal after its opening quote,
returning the content and the remainder after the closing quote. Simple
escapes are decoded (`\uXXXX` escapes are out of the model's scope). -/
def parseStringBody : List Char → Option (List Char × List Char)
  | [] => none
  | c :: t =>
    if c = Char.ofNat 34 then some ([], t)
    else if c = Char.ofNat 92 then
      match t with
      | [] => none
      | e :: t2 =>
        let ec := if e = 'n' then Char.ofNat 10
          else if e = 't' then Char.ofNat 9
          else if e = 'r' then Char.ofNat 13
          else if e = 'b' then Char.ofNat 8
          else if e = 'f' then Char.ofNat 12
          else e
        (parseStringBody t2).map (fun p => (ec :: p.1, p.2))
    else (parseStringBody t).map (fun p => (c :: p.1, p.2))

/-- Split a leading run of decimal digits from the input. -/
def parseDigitsAux : List Char → List Char × List Char
  | [] => ([], [])
  | c :: t =>
    if c.isDigit then
      let p := parseDigitsAux t
      (c :: p.1, p.2)
    else ([], c :: t)

mutual

/-- Fuel-bounded recursive-descent JSON value parse, modelling `json.loads`
on the grammar the client exchanges (objects, arrays, strings, integers,
booleans, null). -/
def parseVal : Nat → List Char → Option (Json × List Char)
  | 0, _ => none
  | fuel + 1, cs =>
    match skipWs cs with
    | [] => none
    | 'n' :: 'u' :: 'l' :: 'l' :: r => some (.null, r)
    | 't' :: 'r' :: 'u' :: 'e' :: r => some (.bool true, r)
    | 'f' :: 'a' :: 'l' :: 's' :: 'e' :: r => some (.bool false, r)
    | '-' :: c :: r =>
      if c.isDigit then
        let p := parseDigitsAux (c :: r)
        (digitsToNat p.1).map (fun n => (.num (-(n : Int)), p.2))
      else none
    | c :: r =>
      if c = Char.ofNat 34 then
        (parseStringBody r).map (fun p => (.str (String.mk p.1), p.2))
      else if c = '[' then
        match skipWs r with
        | ']' :: r2 => some (.arr [], r2)
        | r2 => parseArrItems fuel r2
      else if c = Char.ofNat 123 then
        match skipWs r with
        | c2 :: r2 =>
          if c2 = Char.ofNat 125 then some (.obj [], r2)
          else parseObjItems fuel (c2 :: r2)
        | [] => none
      else if c.isDigit then
        let p := parseDigitsAux (c :: r)
        (digitsToNat p.1).map (fun n => (.num (n : Int), p.2))
      else none

/-- Parse the items of a non-empty array up to its closing bracket. -/
def parseArrItems : Nat → List Char → Option (Json × List Char)
  | 0, _ => none
  | fuel + 1, cs =>
    match parseVal fuel cs with
    | none => none
    | some (v, r) =>
      match skipWs r with
      | ',' :: r2 =>
        match parseArrItems fuel r2 with
        | some (.arr vs, r3) => some (.arr (v :: vs), r3)
        | _ => none
      | ']' :: r2 => some (.arr [v], r2)
      | _ => none

/-- Parse the members of a non-empty object up to its closing brace. -/
def parseObjItems : Nat → List Char → Option (Json × List Char)
  | 0, _ => none
  | fuel + 1, cs =>
    match skipWs cs with
    | [] => none
    | c :: r =>
      if c = Char.ofNat 34 then
        match parseStringBody r with
        | none => none
        | some (k, r2) =>
          match skipWs r2 with
          | ':' :: r3 =>
            match parseVal fuel r3 with
            | none => none
            | some (v, r4) =>
              match skipWs r4 with
              | ',' :: r5 =>
                match parseObjItems fuel r5 with
                | some (.obj kvs, r6) => some (.obj ((String.mk k, v) :: kvs), r6)
                | _ => none
              | c2 :: r5 =>
                if c2 = Char.ofNat 125 then some (.obj [(String.mk k, v)], r5) else none
              | [] => none
          | _ => none
      else none

end

/-- Model of `json.loads`: parse a complete JSON document (trailing whitespace only). -/
def jsonParse (s : String) : Option Json :=
  match parseVal (s.length + 1) s.data with
  | some (v, r) => if (skipWs r).isEmpty then some v else none
  | none => none

/-- The capability value the merge installs:
`{"values": capabilities}` under key `xms_cc`. -/
def xmsCcValue (capabilities : List String) : Json :=
  .obj [("values", .arr (capabilities.map .str))]

/-- The dict-level body of `_merge_claims_challenge_and_capabilities`
(lines 410-411): `claims_dict.setdefault("access_token", {}).update(xms_cc=...)`
— reuse the existing `access_token` object (failing on a non-object, as
`.update` would), set its `xms_cc` member, and store it back. -/
def mergeClaimsDict (kvs : List (String × Json)) (capabilities : List String) :
    Except ProcErr (List (String × Json)) :=
  match lookupKey kvs "access_token" with
  | some (.obj at0) =>
    .ok (setKey kvs "access_token" (.obj (setKey at0 "xms_cc" (xmsCcValue capabilities))))
  | some _ => .error .typeErr
  | none =>
    .ok (setKey kvs "access_token" (.obj [("xms_cc", xmsCcValue capabilities)]))

/-- Model of `_merge_claims_challenge_and_capabilities` (lines 404-412): return the
challenge unchanged when there are no capabilities, else parse it (empty
object when absent or falsy), merge the capability claim and re-serialize. -/
def mergeClaimsChallengeAndCapabilities (capabilities : List String)
    (claims_challenge : Option String) : Except ProcErr (Option String) :=
  if capabilities.isEmpty then .ok claims_challenge
  else
    match claims_challenge with
    | none => (mergeClaimsDict [] capabilities).map (fun kvs => some (jsonDumps (.obj kvs)))
    | some s =>
      if s = "" then
        (mergeClaimsDict [] capabilities).map (fun kvs => some (jsonDumps (.obj kvs)))
      else
        match jsonParse s with
        | none => .error .parseErr
        | some (.obj kvs) =>
          (mergeClaimsDict kvs capabilities).map (fun kvs2 => some (jsonDumps (.obj kvs2)))
        | some _ => .error .typeErr

/-- C5: with no capabilities the merge returns the claims challenge
unchanged (including absent); with capabilities, a malformed challenge
propagates a parse error, a well-formed object challenge (whose
`access_token` member, if any, is an object) always merges successfully into
JSON whose `access_token.xms_cc.values` equals the capabilities while every
other top-level and `access_token`-nested member is preserved, and an absent
or empty challenge yields the pure capability claim. -/
theorem claims_merge (capabilities : List String) (claims_challenge : Option String) :
    (capabilities = [] →
      mergeClaimsChallengeAndCapabilities capabilities claims_challenge =
        .ok claims_challenge) ∧
    (capabilities ≠ [] → ∀ s, claims_challenge = some s → s ≠ "" → jsonParse s = none →
      mergeClaimsChallengeAndCapabilities capabilities claims_challenge =
        .error .parseErr) ∧
    (capabilities ≠ [] → ∀ s kvs, claims_challenge = some s → s ≠ "" →
      jsonParse s = some (.obj kvs) →
      (lookupKey kvs "access_token" = none ∨
        ∃ at0, lookupKey kvs "access_token" = some (.obj at0)) →
      ∃ kvs2 at2,
        mergeClaimsChallengeAndCapabilities capabilities claims_challenge =
          .ok (some (jsonDumps (.obj kvs2))) ∧
        lookupKey kvs2 "access_token" = some (.obj at2) ∧
        lookupKey at2 "xms_cc" = some (xmsCcValue capabilities) ∧
        (∀ k, k ≠ "access_token" → lookupKey kvs2 k = lookupKey kvs k) ∧
        (∀ at0, lookupKey kvs "access_token" = some (.obj at0) →
          ∀ k, k ≠ "xms_cc" → lookupKey at2 k = lookupKey at0 k)) ∧
    (capabilities ≠ [] → (claims_challenge = none ∨ claims_challenge = some "") →
      ∃ kvs2 at2,
        mergeClaimsChallengeAndCapabilities capabilities claims_challenge =
          .ok (some (jsonDumps (.obj kvs2))) ∧
        lookupKey kvs2 "access_token" = some (.obj at2) ∧
        lookupKey at2 "xms_cc" = some (xmsCcValue capabilities)) := by
  have hne : capabilities ≠ [] → capabilities.isEmpty = false := by
    intro h
    cases capabilities with
    | nil => exact absurd rfl h
    | cons a t => rfl
  refine ⟨?_, ?_, ?_, ?_⟩
  · intro h
    subst h
    unfold mergeClaimsChallengeAndCapabilities
    rfl
  · intro h s hs hne2 hparse
    subst hs
    unfold mergeClaimsChallengeAndCapabilities
    rw [if_neg (by simp [hne h])]
    dsimp only
    rw [if_neg hne2, hparse]
  · intro h s kvs hs hne2 hparse hat
    subst hs
    have hmerge : ∃ kvs2 at2, mergeClaimsDict kvs capabilities = .ok kvs2 ∧
        lookupKey kvs2 "access_token" = some (.obj at2) ∧
        lookupKey at2 "xms_cc" = some (xmsCcValue capabilities) ∧
        (∀ k, k ≠ "access_token" → lookupKey kvs2 k = lookupKey kvs k) ∧
        (∀ at0, lookupKey kvs "access_token" = some (.obj at0) →
          ∀ k, k ≠ "xms_cc" → lookupKey at2 k = lookupKey at0 k) := by
      rcases hat with hnone | ⟨at0, hsome⟩
      · refine ⟨setKey kvs "access_token" (.obj [("xms_cc", xmsCcValue capabilities)]),
          [("xms_cc", xmsCcValue capabilities)], ?_, ?_, ?_, ?_, ?_⟩
        · unfold mergeClaimsDict
          rw [hnone]
        · exact lookupKey_setKey_self kvs "access_token" _
        · simp
        · intro k hk
          exact lookupKey_setKey_ne kvs "access_token" k _ hk
        · intro at0 h0
          rw [hnone] at h0
          simp at h0
      · refine ⟨setKey kvs "access_token" (.obj (setKey at0 "xms_cc" (xmsCcValue capabilities))),
          setKey at0 "xms_cc" (xmsCcValue capabilities), ?_, ?_, ?_, ?_, ?_⟩
        · unfold mergeClaimsDict
          rw [hsome]
        · exact lookupKey_setKey_self kvs "access_token" _
        · exact lookupKey_setKey_self at0 "xms_cc" _
        · intro k hk
          exact lookupKey_setKey_ne kvs "access_token" k _ hk
        · intro at1 h1 k hk
          rw [hsome] at h1
          simp only [Option.some.injEq, Json.obj.injEq] at h1
          rw [← h1]
          exact lookupKey_setKey_ne at0 "xms_cc" k _ hk
    obtain ⟨kvs2, at2, hm, h1, h2, h3, h4⟩ := hmerge
    refine ⟨kvs2, at2, ?_, h1, h2, h3, h4⟩
    unfold mergeClaimsChallengeAndCapabilities
    rw [if_neg (by simp [hne h])]
    dsimp only
    rw [if_neg hne2, hparse]
    dsimp only
    rw [hm]
    rfl
  · intro h hcc
    have hmerge : mergeClaimsDict [] capabilities =
        .ok [("access_token", .obj [("xms_cc", xmsCcValue capabilities)])] := by
      unfold mergeClaimsDict
      rfl
    refine ⟨[("access_token", .obj [("xms_cc", xmsCcValue capabilities)])],
      [("xms_cc", xmsCcValue capabilities)], ?_, by simp, by simp⟩
    rcases hcc with rfl | rfl
    · unfold mergeClaimsChallengeAndCapabilities
      rw [if_neg (by simp [hne h])]
      dsimp only
      rw [hmerge]
      rfl
    · unfold mergeClaimsChallengeAndCapabilities
      rw [if_neg (by simp [hne h])]
      dsimp only
      rw [if_pos rfl]
      rw [hmerge]
      rfl

/-- Witness for C5: merging `["CP1"]` into a concrete challenge with an
unrelated top-level member and an `access_token` object with a sibling
member. -/
theorem claims_merge_witness :
    jsonParse "\x7b\"access_token\": \x7b\"nonce\": 1\x7d, \"id_token\": 2\x7d" =
      some (.obj [("access_token", .obj [("nonce", .num 1)]), ("id_token", .num 2)]) ∧
    ∃ kvs2 at2,
      mergeClaimsChallengeAndCapabilities ["CP1"]
          (some "\x7b\"access_token\": \x7b\"nonce\": 1\x7d, \"id_token\": 2\x7d") =
        .ok (some (jsonDumps (.obj kvs2))) ∧
      lookupKey kvs2 "access_token" = some (.obj at2) ∧
      lookupKey at2 "xms_cc" = some (xmsCcValue ["CP1"]) ∧
      (∀ k, k ≠ "access_token" → lookupKey kvs2 k =
        lookupKey [("access_token", Json.obj [("nonce", Json.num 1)]), ("id_token", Json.num 2)] k) ∧
      (∀ at0, lookupKey [("access_token", Json.obj [("nonce", Json.num 1)]),
          ("id_token", Json.num 2)] "access_token" = some (.obj at0) →
        ∀ k, k ≠ "xms_cc" → lookupKey at2 k = lookupKey at0 k) := by
  constructor
  · rfl
  · exact (claims_merge ["CP1"]
      (some "\x7b\"access_token\": \x7b\"nonce\": 1\x7d, \"id_token\": 2\x7d")).2.2.1
      (by simp)
      "\x7b\"access_token\": \x7b\"nonce\": 1\x7d, \"id_token\": 2\x7d"
      [("access_token", .obj [("nonce", .num 1)]), ("id_token", .num 2)]
      rfl (by simp) rfl (Or.inr ⟨[("nonce", .num 1)], rfl⟩)

/-- The client-assertion-type constant (line 33). -/
def JWT_BEARER_ASSERTION : String :=
  "urn:ietf:params:oauth:client-assertion-type:jwt-bearer"

/-- The three shapes `client_credential` can take in the on-behalf-of
builders (lines 312-320): a certificate, a provider callable, or a plain
secret. -/
inductive ClientCredential where
  | secret : String → ClientCredential
  | certificate : AadClientCertificate → ClientCredential
  | assertionFunc : (Unit → String) → ClientCredential

/-- Attach the client credential to the form data as the builders do
(lines 312-320 and 366-374): the certificate branch signs an assertion with
NO per-call options forwarded (`self._get_client_certificate_assertion(
client_credential)`), so the assertion is built against the default
`Kwargs`. -/
def attachClientCredential (client : Client) (data : Content) (cred : ClientCredential)
    (now : Int) (jti : String) : Content :=
  match cred with
  | .certificate cert =>
    setKey (setKey data "client_assertion"
        (.str (getClientCertificateAssertion client cert {} now jti)))
      "client_assertion_type" (.str JWT_BEARER_ASSERTION)
  | .assertionFunc f =>
    setKey (setKey data "client_assertion" (.str (f ())))
      "client_assertion_type" (.str JWT_BEARER_ASSERTION)
  | .secret s => setKey data "client_secret" (.str s)

/-- Append the merged claims to the form data when truthy (the shared
`if claims: data["claims"] = claims` step of every builder). -/
def attachClaims (data : Content) (claims : Option String) : Content :=
  match claims with
  | some c => if c = "" then data else setKey data "claims" (.str c)
  | none => data

/-- Model of `AadClientBase._get_on_behalf_of_request` (lines 291-323). The request
posts to the per-call tenant URL, but the certificate assertion is built
without the per-call options. -/
def getOnBehalfOfRequest (client : Client) (scopes : List String) (cred : ClientCredential)
    (userAssertion : String) (kwargs : Kwargs) (now : Int) (jti : String) :
    Except ProcErr HttpRequest :=
  match mergeClaimsChallengeAndCapabilities
      (if kwargs.enable_cae then ["CP1"] else []) kwargs.claims with
  | .error e => .error e
  | .ok claims =>
    .ok ⟨getTokenUrl client kwargs,
      attachClientCredential client
        (attachClaims
          [("assertion", .str userAssertion), ("client_id", .str client.client_id),
            ("grant_type", .str "urn:ietf:params:oauth:grant-type:jwt-bearer"),
            ("requested_token_use", .str "on_behalf_of"),
            ("scope", .str (joinSep " " scopes))] claims)
        cred now jti⟩

/-- Model of `AadClientBase._get_refresh_token_on_behalf_of_request` (lines 346-376),
with the same non-forwarding of per-call options to the assertion signer. -/
def getRefreshTokenOnBehalfOfRequest (client : Client) (scopes : List String)
    (cred : ClientCredential) (refreshToken : String) (kwargs : Kwargs) (now : Int)
    (jti : String) : Except ProcErr HttpRequest :=
  match mergeClaimsChallengeAndCapabilities
      (if kwargs.enable_cae then ["CP1"] else []) kwargs.claims with
  | .error e => .error e
  | .ok claims =>
    .ok ⟨getTokenUrl client kwargs,
      attachClientCredential client
        (attachClaims
          [("grant_type", .str "refresh_token"), ("refresh_token", .str refreshToken),
            ("scope", .str (joinSep " " scopes)), ("client_id", .str client.client_id),
            ("client_info", .num 1)] claims)
        cred now jti⟩

theorem attachClientCredential_certificate_lookup (client : Client) (data : Content)
    (cert : AadClientCertificate) (now : Int) (jti : String) :
    lookupKey (attachClientCredential client data (.certificate cert) now jti)
        "client_assertion" =
      some (.str (getClientCertificateAssertion client cert {} now jti)) := by
  unfold attachClientCredential
  rw [lookupKey_setKey_ne _ _ _ _ (by simp), lookupKey_setKey_self]

/-- C10: both on-behalf-of builders with a certificate credential post to the
per-call-tenant token URL, yet carry a `client_assertion` built with the
default options — whose `aud` claim is the default tenant's token endpoint —
because the builders do not forward per-call options to the assertion
signer. -/
theorem obo_assertion_audience (client : Client) (scopes : List String)
    (cert : AadClientCertificate) (userAssertion refreshToken : String) (kwargs : Kwargs)
    (now : Int) (jti : String) (req₁ req₂ : HttpRequest)
    (h₁ : getOnBehalfOfRequest client scopes (.certificate cert) userAssertion kwargs now
      jti = .ok req₁)
    (h₂ : getRefreshTokenOnBehalfOfRequest client scopes (.certificate cert) refreshToken
      kwargs now jti = .ok req₂) :
    (lookupKey req₁.body "client_assertion" =
        some (.str (getClientCertificateAssertion client cert {} now jti)) ∧
      req₁.url = getTokenUrl client kwargs) ∧
    (lookupKey req₂.body "client_assertion" =
        some (.str (getClientCertificateAssertion client cert {} now jti)) ∧
      req₂.url = getTokenUrl client kwargs) ∧
    lookupKey (assertionPayload client {} now jti) "aud" =
      some (.str (joinSep "/" [client.authority, client.tenant_id, "oauth2/v2.0/token"])) ∧
    getTokenUrl client kwargs =
      joinSep "/" [client.authority, resolveTenant client.tenant_id kwargs.tenant_id,
        "oauth2/v2.0/token"] := by
  have hb₁ : ∀ req : HttpRequest,
      getOnBehalfOfRequest client scopes (.certificate cert) userAssertion kwargs now jti =
        .ok req →
      lookupKey req.body "client_assertion" =
        some (.str (getClientCertificateAssertion client cert {} now jti)) ∧
      req.url = getTokenUrl client kwargs := by
    intro req hreq
    unfold getOnBehalfOfRequest at hreq
    cases hm : mergeClaimsChallengeAndCapabilities
        (if kwargs.enable_cae then ["CP1"] else []) kwargs.claims with
    | error e => rw [hm] at hreq; simp at hreq
    | ok claims =>
      rw [hm] at hreq
      dsimp only at hreq
      simp only [Except.ok.injEq] at hreq
      subst hreq
      exact ⟨attachClientCredential_certificate_lookup client _ cert now jti, rfl⟩
  have hb₂ : ∀ req : HttpRequest,
      getRefreshTokenOnBehalfOfRequest client scopes (.certificate cert) refreshToken kwargs
        now jti = .ok req →
      lookupKey req.body "client_assertion" =
        some (.str (getClientCertificateAssertion client cert {} now jti)) ∧
      req.url = getTokenUrl client kwargs := by
    intro req hreq
    unfold getRefreshTokenOnBehalfOfRequest at hreq
    cases hm : mergeClaimsChallengeAndCapabilities
        (if kwargs.enable_cae then ["CP1"] else []) kwargs.claims with
    | error e => rw [hm] at hreq; simp at hreq
    | ok claims =>
      rw [hm] at hreq
      dsimp only at hreq
      simp only [Except.ok.injEq] at hreq
      subst hreq
      exact ⟨attachClientCredential_certificate_lookup client _ cert now jti, rfl⟩
  refine ⟨hb₁ req₁ h₁, hb₂ req₂ h₂, ?_, rfl⟩
  simp [assertionPayload, getTokenUrl, resolveTenant]

/-- Witness for C10 with a per-call tenant override: the request URL names
the override tenant while the assertion audience names the default tenant. -/
theorem obo_assertion_audience_witness :
    (∃ req₁, getOnBehalfOfRequest (initClient "t" "c" "https://h" none none none none) ["s"]
        (.certificate ⟨"T", "S", fun _ => [1], fun _ => [1]⟩) "ua"
        { tenant_id := some "t2" } 0 "j" = .ok req₁ ∧
      lookupKey req₁.body "client_assertion" =
        some (.str (getClientCertificateAssertion
          (initClient "t" "c" "https://h" none none none none)
          ⟨"T", "S", fun _ => [1], fun _ => [1]⟩ {} 0 "j")) ∧
      req₁.url = "https://h/t2/oauth2/v2.0/token") ∧
    lookupKey (assertionPayload (initClient "t" "c" "https://h" none none none none) {} 0 "j")
        "aud" = some (.str "https://h/t/oauth2/v2.0/token") := by
  have h := obo_assertion_audience (initClient "t" "c" "https://h" none none none none) ["s"]
    ⟨"T", "S", fun _ => [1], fun _ => [1]⟩ "ua" "rt" { tenant_id := some "t2" } 0 "j"
    ⟨"https://h/t2/oauth2/v2.0/token",
      attachClientCredential (initClient "t" "c" "https://h" none none none none)
        [("assertion", .str "ua"), ("client_id", .str "c"),
          ("grant_type", .str "urn:ietf:params:oauth:grant-type:jwt-bearer"),
          ("requested_token_use", .str "on_behalf_of"), ("scope", .str "s")]
        (.certificate ⟨"T", "S", fun _ => [1], fun _ => [1]⟩) 0 "j"⟩
    ⟨"https://h/t2/oauth2/v2.0/token",
      attachClientCredential (initClient "t" "c" "https://h" none none none none)
        [("grant_type", .str "refresh_token"), ("refresh_token", .str "rt"),
          ("scope", .str "s"), ("client_id", .str "c"), ("client_info", .num 1)]
        (.certificate ⟨"T", "S", fun _ => [1], fun _ => [1]⟩) 0 "j"⟩
    rfl rfl
  refine ⟨⟨_, rfl, h.1.1, ?_⟩, ?_⟩
  · exact h.1.2
  · have := h.2.2.1
    simpa using this

theorem entryExpiry_of_computeExpiresOn (c : Content) (requestTime eon : Int)
    (h : computeExpiresOn c requestTime = .ok eon) :
    entryExpiry c requestTime = some eon := by
  unfold computeExpiresOn at h
  unfold entryExpiry
  cases hl : lookupKey c "expires_on" with
  | some v =>
    rw [hl] at h
    dsimp only at h
    unfold asInt at h
    cases hi : intOfJson v with
    | none => rw [hi] at h; simp at h
    | some n =>
      rw [hi] at h
      dsimp only at h
      simp only [Except.ok.injEq] at h
      dsimp only
      rw [hi, h]
  | none =>
    rw [hl] at h
    dsimp only at h
    cases hl2 : lookupKey c "expires_in" with
    | some v =>
      rw [hl2] at h
      dsimp only at h
      unfold asInt at h
      cases hi : intOfJson v with
      | none => rw [hi] at h; simp [Except.map] at h
      | some n =>
        rw [hi] at h
        simp only [Except.map, Except.ok.injEq] at h
        dsimp only
        rw [hi]
        simp [h]
    | none => rw [hl2] at h; simp at h

theorem entryRefreshOn_of_computeRefreshOn (c : Content) (requestTime : Int)
    (ron : Option Int) (h : computeRefreshOn c requestTime = .ok ron) :
    entryRefreshOn c requestTime = ron := by
  unfold computeRefreshOn at h
  unfold entryRefreshOn
  cases hl : lookupKey c "refresh_in" with
  | some v =>
    rw [hl] at h
    dsimp only at h
    unfold asInt at h
    cases hi : intOfJson v with
    | none => rw [hi] at h; simp [Except.map] at h
    | some n =>
      rw [hi] at h
      simp only [Except.map, Except.ok.injEq] at h
      dsimp only
      rw [hi]
      simp [h]
  | none =>
    rw [hl] at h
    dsimp only at h
    simp only [Except.ok.injEq] at h
    dsimp only
    rw [← h]

theorem cacheAdd_accessTokens (cache : TokenCache) (ev : CacheEvent) (now : Int)
    (s : String) (exp : Int)
    (ha : lookupKey ev.response "access_token" = some (.str s))
    (he : entryExpiry ev.response now = some exp) :
    (cacheAdd cache ev now).accessTokens =
      upsertAT cache.accessTokens
        ⟨ev.client_id, realmOfUrl ev.token_endpoint, ev.scope, s, exp,
          tokenTypeOf ev.response, entryRefreshOn ev.response now⟩ := by
  unfold cacheAdd
  rw [ha, he]

theorem all_contains_self (l : List String) : l.all (fun s => l.contains s) = true := by
  rw [List.all_eq_true]
  intro s hs
  exact List.elem_iff.mpr hs

theorem find?_upsertAT (l : List ATEntry) (ne : ATEntry) (p : ATEntry → Bool)
    (hall : ∀ x ∈ l, p x = false) (hp : p ne = true) :
    (upsertAT l ne).find? p = some ne := by
  induction l with
  | nil => simp [upsertAT, List.find?, hp]
  | cons x xs ih =>
    unfold upsertAT
    by_cases hk : atSameKey x ne = true
    · rw [if_pos hk]
      simp [List.find?, hp]
    · rw [if_neg hk]
      have hx : p x = false := hall x (by simp)
      simp only [List.find?, hx]
      exact ih (fun y hy => hall y (by simp [hy]))

/-- C9 (amended): caching a successfully processed response and immediately
looking it up with the same scopes, client and tenant returns the very token
response processing returned, provided the token is unexpired at lookup time
AND no access-token entry already in the cache matches the lookup query
unexpired (the first matching entry wins, so a pre-existing unexpired entry
whose target covers the scopes shadows the new one — see the
counterexample). -/
theorem cache_roundtrip (client : Client) (cache : TokenCache) (req : HttpRequest)
    (content : Content) (requestTime now : Int) (cache' : TokenCache)
    (tok : AccessTokenInfo) (content₂ : Content) (scopes : List String) (kwargs : Kwargs)
    (scopeStr : String)
    (hproc : processResponse client cache req content requestTime =
      (cache', .ok (tok, content₂)))
    (hscope : lookupKey req.body "scope" = some (.str scopeStr))
    (hscopes : pySplitWs scopeStr = scopes)
    (hrealm : realmOfUrl req.url = resolveTenant client.tenant_id kwargs.tenant_id)
    (hfresh : now < tok.expires_on)
    (hnoshadow : ∀ e ∈ cache.accessTokens,
      atQueryMatch client.client_id (resolveTenant client.tenant_id kwargs.tenant_id)
        scopes now e = false) :
    getCachedAccessToken client cache' scopes kwargs now = some tok := by
  unfold processResponse at hproc
  cases hstep : refreshGrantStep req.body content cache with
  | error e => rw [hstep] at hproc; simp at hproc
  | ok pair =>
    obtain ⟨cache₁, content₁⟩ := pair
    rw [hstep] at hproc
    dsimp only at hproc
    cases haux : processResponseAux client cache₁ req content₁ requestTime with
    | error e => rw [haux] at hproc; simp at hproc
    | ok res =>
      obtain ⟨tok', cache₂, ct₂⟩ := res
      rw [haux] at hproc
      dsimp only at hproc
      simp only [Prod.mk.injEq, Except.ok.injEq] at hproc
      obtain ⟨hcache, htokEq, hctEq⟩ := hproc
      obtain ⟨herr1, eon, ein, ron, scopeStr', hon', hin', hct₂, hron, htokb, hscope',
        hc₂⟩ := processResponseAux_ok_inv client cache₁ req content₁ requestTime tok'
          cache₂ ct₂ haux
      have hscopeEq : scopeStr' = scopeStr := by
        rw [hscope'] at hscope
        simpa using hscope
      rw [hscopeEq] at hc₂
      obtain ⟨hfe, hfro, hftt, hfat⟩ := buildToken_ok_fields _ _ _ _ htokb
      have hats₁ : cache₁.accessTokens = cache.accessTokens :=
        refreshGrantStep_ok_accessTokens _ _ _ _ _ hstep
      have hsyn_eo : lookupKey ct₂ "expires_on" = lookupKey content₁ "expires_on" := by
        rw [hct₂]
        exact lookupKey_synthRefreshIn _ _ _ (by simp)
      have hsyn_ei : lookupKey ct₂ "expires_in" = lookupKey content₁ "expires_in" := by
        rw [hct₂]
        exact lookupKey_synthRefreshIn _ _ _ (by simp)
      have hon₂ : computeExpiresOn ct₂ requestTime = .ok eon :=
        computeExpiresOn_ok_congr ct₂ content₁ requestTime hsyn_eo.symm hsyn_ei.symm eon hon'
      have hee : entryExpiry ct₂ requestTime = some eon :=
        entryExpiry_of_computeExpiresOn ct₂ requestTime eon hon₂
      have her : entryRefreshOn ct₂ requestTime = ron :=
        entryRefreshOn_of_computeRefreshOn ct₂ requestTime ron hron
      have hatlist : cache₂.accessTokens =
          upsertAT cache.accessTokens
            ⟨client.client_id, realmOfUrl req.url, pySplitWs scopeStr, tok'.token, eon,
              tokenTypeOf ct₂, entryRefreshOn ct₂ requestTime⟩ := by
        rw [hc₂]
        rw [cacheAdd_accessTokens cache₁
          ⟨client.client_id, ct₂, pySplitWs scopeStr, req.url⟩ requestTime tok'.token eon
          hfat hee]
        rw [hats₁]
      have hp : atQueryMatch client.client_id
          (resolveTenant client.tenant_id kwargs.tenant_id) scopes now
          ⟨client.client_id, realmOfUrl req.url, pySplitWs scopeStr, tok'.token, eon,
            tokenTypeOf ct₂, entryRefreshOn ct₂ requestTime⟩ = true := by
        unfold atQueryMatch
        rw [hscopes, hrealm]
        simp only [beq_self_eq_true, Bool.true_and]
        rw [all_contains_self]
        simp only [Bool.true_and]
        rw [decide_eq_true_eq]
        rw [← hfe, htokEq]
        exact hfresh
      unfold getCachedAccessToken
      dsimp only
      rw [← hcache, hatlist]
      rw [find?_upsertAT cache.accessTokens _ _ hnoshadow hp]
      simp only [Option.map_some']
      unfold toAccessTokenInfo
      dsimp only
      rw [← htokEq, her, ← hfe, ← hfro, ← hftt]

/-- C9 counterexample: a pre-existing unexpired entry whose target is a
superset of the requested scopes is found first, so the lookup after caching
returns that older token, not the one response processing returned. -/
theorem cache_roundtrip_counterexample :
    (processResponse (initClient "t" "c" "https://h" none none none none)
        ⟨[⟨"c", "t", ["s", "x"], "OLD", 1000, "Bearer", none⟩], []⟩
        ⟨"https://h/t/oauth2/v2.0/token",
          [("grant_type", Json.str "client_credentials"), ("scope", Json.str "s")]⟩
        [("access_token", Json.str "NEW"), ("expires_in", Json.num 500)] 0).2 =
      .ok (⟨"NEW", 500, "Bearer", none⟩,
        [("access_token", Json.str "NEW"), ("expires_in", Json.num 500)]) ∧
    (10 : Int) < 500 ∧
    getCachedAccessToken (initClient "t" "c" "https://h" none none none none)
        (processResponse (initClient "t" "c" "https://h" none none none none)
          ⟨[⟨"c", "t", ["s", "x"], "OLD", 1000, "Bearer", none⟩], []⟩
          ⟨"https://h/t/oauth2/v2.0/token",
            [("grant_type", Json.str "client_credentials"), ("scope", Json.str "s")]⟩
          [("access_token", Json.str "NEW"), ("expires_in", Json.num 500)] 0).1
        ["s"] {} 10 = some ⟨"OLD", 1000, "Bearer", none⟩ ∧
    (⟨"OLD", 1000, "Bearer", none⟩ : AccessTokenInfo) ≠ ⟨"NEW", 500, "Bearer", none⟩ := by
  refine ⟨rfl, by norm_num, rfl, by decide⟩

/-- Witness for C9 starting from an empty cache. -/
theorem cache_roundtrip_witness :
    (processResponse (initClient "t" "c" "https://h" none none none none)
        TokenCache.empty
        ⟨"https://h/t/oauth2/v2.0/token",
          [("grant_type", Json.str "client_credentials"), ("scope", Json.str "s")]⟩
        [("access_token", Json.str "NEW"), ("expires_in", Json.num 500)] 0).2 =
      .ok (⟨"NEW", 500, "Bearer", none⟩,
        [("access_token", Json.str "NEW"), ("expires_in", Json.num 500)]) ∧
    getCachedAccessToken (initClient "t" "c" "https://h" none none none none)
        (processResponse (initClient "t" "c" "https://h" none none none none)
          TokenCache.empty
          ⟨"https://h/t/oauth2/v2.0/token",
            [("grant_type", Json.str "client_credentials"), ("scope", Json.str "s")]⟩
          [("access_token", Json.str "NEW"), ("expires_in", Json.num 500)] 0).1
        ["s"] {} 10 = some ⟨"NEW", 500, "Bearer", none⟩ := by
  constructor
  · rfl
  · exact cache_roundtrip (initClient "t" "c" "https://h" none none none none)
      TokenCache.empty
      ⟨"https://h/t/oauth2/v2.0/token",
        [("grant_type", Json.str "client_credentials"), ("scope", Json.str "s")]⟩
      [("access_token", Json.str "NEW"), ("expires_in", Json.num 500)] 0 10
      (processResponse (initClient "t" "c" "https://h" none none none none)
        TokenCache.empty
        ⟨"https://h/t/oauth2/v2.0/token",
          [("grant_type", Json.str "client_credentials"), ("scope", Json.str "s")]⟩
        [("access_token", Json.str "NEW"), ("expires_in", Json.num 500)] 0).1
      ⟨"NEW", 500, "Bearer", none⟩
      [("access_token", Json.str "NEW"), ("expires_in", Json.num 500)]
      ["s"] {} "s" rfl rfl rfl rfl (by norm_num) (by intro e he; simp [TokenCache.empty] at he)

end AadClient
